import Mathlib

/-!
# Fireflies particle simulation: embedding of `Particle.cpp` and of the
simulation part of `main.cpp`

Scalars (`float`, `double`) are embedded as exact rationals, so every statement
below is about the arithmetic the code writes down, without rounding; a
quotient by a zero mass, which the code would evaluate to an infinity or a
NaN, is outside the embedding.  `glm::vec3` is a record of three scalars with
the componentwise operations the code uses.  `Particle*` values are addresses
into an explicit heap, and `rand()` is a sequence `rng` of naturals, of which
the state counts how many have been drawn.

The loop of `Application::update` erases the front of `fireflies` while it
iterates over it.  It is embedded with what the contiguous storage of
`std::vector` does then: the loop keeps the `begin` and `end` it took at its
start, and `erase(begin())` moves the elements one slot down and leaves the
slot of the former last element as it was.
-/

namespace Particles

/-- Embedding of `glm::vec3`. -/
@[ext]
structure Vec3 where
  x : ℚ
  y : ℚ
  z : ℚ
deriving DecidableEq

namespace Vec3

/-- Embedding of `vec3(0)`. -/
def zero : Vec3 := ⟨0, 0, 0⟩

/-- Componentwise `a + b`. -/
def add (a b : Vec3) : Vec3 := ⟨a.x + b.x, a.y + b.y, a.z + b.z⟩

/-- Componentwise `a - b`. -/
def sub (a b : Vec3) : Vec3 := ⟨a.x - b.x, a.y - b.y, a.z - b.z⟩

/-- Product `v * s` (or `s * v`) of a vector with a scalar. -/
def scale (v : Vec3) (s : ℚ) : Vec3 := ⟨v.x * s, v.y * s, v.z * s⟩

/-- Quotient `v / s` of a vector by a scalar. -/
def divs (v : Vec3) (s : ℚ) : Vec3 := ⟨v.x / s, v.y / s, v.z / s⟩

/-- Sum of squares of the components, the argument of the square root in `glm::length`. -/
def normSq (v : Vec3) : ℚ := v.x * v.x + v.y * v.y + v.z * v.z

/-- Embedding of `glm::length`: the square root of the sum of squares.  The
square root function of the numeric library is a parameter. -/
def length (sqrtf : ℚ → ℚ) (v : Vec3) : ℚ := sqrtf (normSq v)

instance : Zero Vec3 := ⟨zero⟩
instance : Add Vec3 := ⟨add⟩
instance : Sub Vec3 := ⟨sub⟩

instance : AddCommMonoid Vec3 where
  add_assoc a b c := by
    show add (add a b) c = add a (add b c)
    simp [add, add_assoc]
  zero_add a := by
    show add zero a = a
    simp [add, zero]
  add_zero a := by
    show add a zero = a
    simp [add, zero]
  add_comm a b := by
    show add a b = add b a
    simp [add, add_comm]
  nsmul := nsmulRec

end Vec3

/-- Embedding of `class Particle` (`headers/Particle.h`). -/
@[ext]
structure Particle where
  mass : ℚ
  position : Vec3
  velocity : Vec3
  forces : Vec3
deriving DecidableEq

namespace Particle

/-- Embedding of the constructor `Particle::Particle(m, x, v, f)`: four assignments. -/
def new (m : ℚ) (x v f : Vec3) : Particle :=
  { mass := m, position := x, velocity := v, forces := f }

/-- Outcome of the expression `Particle(m, x, v, f)` for its caller.  A C++
constructor reports failure only by throwing; the body of this one holds no
`throw` and no test on `m`, so the outcome is always the constructed object. -/
def construct (m : ℚ) (x v f : Vec3) : Except String Particle :=
  Except.ok (new m x v f)

/-- Embedding of `Particle::addForce`. -/
def addForce (p : Particle) (forceIn : Vec3) : Particle :=
  { p with forces := ⟨p.forces.x + forceIn.x, p.forces.y + forceIn.y, p.forces.z + forceIn.z⟩ }

/-- Embedding of `Particle::update`. -/
def update (p : Particle) (dt : ℚ) : Particle :=
  let accel := p.forces.divs p.mass
  let velocity := p.velocity + accel.scale dt
  let position := p.position + velocity.scale dt
  { mass := p.mass, position := position, velocity := velocity, forces := Vec3.zero }

/-- A run of `addForce` calls, first element of the list first. -/
def addForces (p : Particle) (fs : List Vec3) : Particle :=
  fs.foldl addForce p

/-- Outcome of the call `p.update(dt)` for its caller.  The function returns
`void` and could report a failure only by throwing; its body holds no `throw`
and no test on `dt`, so the outcome is always the updated particle. -/
def updateOutcome (p : Particle) (dt : ℚ) : Except String Particle :=
  Except.ok (p.update dt)

end Particle

/-- Value of the constant `NUMBER_OF_FIREFLIES` of `main.cpp`. -/
def NUMBER_OF_FIREFLIES : Nat := 500

/-- Value of the constant `FIREFLIES_PER_CLICK` of `main.cpp`. -/
def FIREFLIES_PER_CLICK : Nat := 10

/-- GLFW action code of a key or button release. -/
def GLFW_RELEASE : Int := 0
/-- GLFW action code of a key or button press. -/
def GLFW_PRESS : Int := 1
/-- GLFW action code of a key repeat. -/
def GLFW_REPEAT : Int := 2
/-- GLFW key code of the escape key. -/
def GLFW_KEY_ESCAPE : Int := 256
/-- GLFW key code of the tab key. -/
def GLFW_KEY_TAB : Int := 258
/-- GLFW key code of the key C. -/
def GLFW_KEY_C : Int := 67
/-- GLFW key code of the key G. -/
def GLFW_KEY_G : Int := 71
/-- GLFW key code of the key M. -/
def GLFW_KEY_M : Int := 77
/-- GLFW key code of the key Z. -/
def GLFW_KEY_Z : Int := 90

/-- The simulation state of `class Application`, with the heap its particle
pointers point into: a `Particle*` is an address, a natural number.  Every
`new Particle` takes the address `next`; the program never deletes a
particle.  `randCalls` counts the calls of `rand()` made so far; the last two
fields are the window and GL state written by `keyCallback`. -/
structure Application where
  heap : Nat → Particle
  next : Nat
  fireflies : List Nat
  magnets : List Nat
  isGravityOn : Bool
  isMagnetModeOn : Bool
  isCenterPointAttractive : Bool
  randCalls : Nat
  windowShouldClose : Bool
  polygonFill : Bool

/-- The member initialiser `centerPoint = vec3(0, 0, -2)`. -/
def centerPoint : Vec3 := ⟨0, 0, -2⟩

/-- Embedding of `Application::generateRandomFloat`, where `r` is the value
`rand()` returns: `r % 100 / 100.0f * (highBound - lowBound) + lowBound`. -/
def generateRandomFloat (r : Nat) (lowBound highBound : ℚ) : ℚ :=
  ((r % 100 : Nat) : ℚ) / 100 * (highBound - lowBound) + lowBound

namespace Application

/-- State of a freshly constructed `Application`: empty collections, all
toggles off. -/
def init : Application :=
  { heap := fun _ => Particle.new 0 Vec3.zero Vec3.zero Vec3.zero
    next := 0
    fireflies := []
    magnets := []
    isGravityOn := false
    isMagnetModeOn := false
    isCenterPointAttractive := false
    randCalls := 0
    windowShouldClose := false
    polygonFill := true }

/-- Updates in place the object at address `ptr`. -/
def modify (s : Application) (ptr : Nat) (f : Particle → Particle) : Application :=
  { s with heap := Function.update s.heap ptr (f (s.heap ptr)) }

/-- The statement `new Particle(...)`, the new object being `p`: stores `p` at
the fresh address. -/
def alloc (s : Application) (p : Particle) : Application :=
  { s with heap := Function.update s.heap s.next p, next := s.next + 1 }

/-- Embedding of `Application::keyCallback`. -/
def keyCallback (key action : Int) (s : Application) : Application :=
  if key = GLFW_KEY_ESCAPE then
    { s with windowShouldClose := decide (action = GLFW_PRESS) }
  else if key = GLFW_KEY_Z then
    { s with polygonFill := decide (action = GLFW_RELEASE) }
  else if key = GLFW_KEY_G then
    if action = GLFW_RELEASE then { s with isGravityOn := !s.isGravityOn } else s
  else if key = GLFW_KEY_M then
    if action = GLFW_RELEASE then { s with isMagnetModeOn := !s.isMagnetModeOn } else s
  else if key = GLFW_KEY_TAB then
    { s with magnets := [], fireflies := [] }
  else if key = GLFW_KEY_C then
    -- falls through to `default`, which only prints
    if action = GLFW_RELEASE then
      { s with isCenterPointAttractive := !s.isCenterPointAttractive }
    else s
  else s

/-- The `for` loop of `mouseCallback`, with `k` iterations left: each iteration
draws the three velocity components (from left to right) and then the mass,
and pushes a new particle at `(worldSpaceX, worldSpaceY, -2)`. -/
def spawnLoop (rng : Nat → Nat) (worldSpaceX worldSpaceY : ℚ) : Nat → Application → Application
  | 0, s => s
  | k + 1, s =>
    let c := s.randCalls
    let randVelo : Vec3 :=
      ⟨generateRandomFloat (rng c) (-(15 / 100)) (15 / 100),
       generateRandomFloat (rng (c + 1)) (-(15 / 100)) (15 / 100),
       generateRandomFloat (rng (c + 2)) (-(15 / 100)) (15 / 100)⟩
    let p := Particle.new (generateRandomFloat (rng (c + 3)) (7 / 10) (12 / 10))
      ⟨worldSpaceX, worldSpaceY, -2⟩ randVelo ⟨0, 0, 0⟩
    spawnLoop rng worldSpaceX worldSpaceY k
      { s.alloc p with fireflies := s.fireflies ++ [s.next], randCalls := c + 4 }

/-- Embedding of `Application::mouseCallback`.  The cursor position and the
framebuffer size, which the code asks the window for, are arguments; `rng n`
is the value of the `n`-th call of `rand()`. -/
def mouseCallback (rng : Nat → Nat) (action : Int) (posX posY : ℚ) (width height : Int)
    (s : Application) : Application :=
  if action = GLFW_PRESS then
    let worldSpaceX : ℚ := 4 * posX / width - 2
    let worldSpaceY : ℚ := -2 * posY / height + 1
    if !s.isMagnetModeOn then
      spawnLoop rng worldSpaceX worldSpaceY FIREFLIES_PER_CLICK s
    else
      let p := Particle.new 2
        ⟨worldSpaceX, worldSpaceY, generateRandomFloat (rng s.randCalls) (-(25 / 10)) (-(15 / 10))⟩
        Vec3.zero Vec3.zero
      { s.alloc p with magnets := s.magnets ++ [s.next], randCalls := s.randCalls + 1 }
  else s

/-- One pass of the inner loop over the magnets in `update`: the magnet at
address `mag` acts on the firefly at address `fly`. -/
def magnetStep (sqrtf : ℚ → ℚ) (fly : Nat) (s : Application) (mag : Nat) : Application :=
  let forceVector := (s.heap fly).position - (s.heap mag).position
  if Vec3.length sqrtf forceVector < 1 then s.modify fly (fun p => p.addForce forceVector)
  else s

/-- First statement of the body of the loop of `update`:
`fly->update(dtime)`. -/
def integrateFly (dtime : ℚ) (s : Application) (fly : Nat) : Application :=
  s.modify fly (fun p => p.update dtime)

/-- Second statement of the body: the attraction towards `centerPoint`,
applied when the toggle is on. -/
def attractFly (sqrtf : ℚ → ℚ) (rng : Nat → Nat) (s : Application) (fly : Nat) : Application :=
  if s.isCenterPointAttractive then
    let forceVectorTowardsCenter := centerPoint - (s.heap fly).position
    let distFromCenter := Vec3.length sqrtf forceVectorTowardsCenter / 25
    let r := generateRandomFloat (rng s.randCalls) (1 / 10) (25 / 100)
    { s.modify fly (fun p => p.addForce (forceVectorTowardsCenter.scale (distFromCenter * r)))
      with randCalls := s.randCalls + 1 }
  else s

/-- Third statement of the body: gravity, applied when the toggle is on. -/
def gravitateFly (s : Application) (fly : Nat) : Application :=
  if s.isGravityOn then s.modify fly (fun p => p.addForce ⟨0, -(25 / 100), 0⟩) else s

/-- Fourth statement of the body: the loop over the magnets. -/
def repelFly (sqrtf : ℚ → ℚ) (s : Application) (fly : Nat) : Application :=
  s.magnets.foldl (magnetStep sqrtf fly) s

/-- Fifth statement of the body: the small random force; its three draws are
taken from left to right. -/
def jitterFly (rng : Nat → Nat) (s : Application) (fly : Nat) : Application :=
  let c := s.randCalls
  let jitter : Vec3 :=
    ⟨generateRandomFloat (rng c) (-(15 / 100)) (15 / 100),
     generateRandomFloat (rng (c + 1)) (-(15 / 100)) (15 / 100),
     generateRandomFloat (rng (c + 2)) (-(15 / 100)) (15 / 100)⟩
  { s.modify fly (fun p => p.addForce jitter) with randCalls := c + 3 }

/-- The part of the body of the loop of `update` that acts on the firefly at
address `fly`, that is everything but the test of the size: the five
statements in the order of the source. -/
def flyBody (sqrtf : ℚ → ℚ) (rng : Nat → Nat) (dtime : ℚ) (s : Application) (fly : Nat) :
    Application :=
  let s1 := integrateFly dtime s fly
  let s2 := attractFly sqrtf rng s1 fly
  let s3 := gravitateFly s2 fly
  let s4 := repelFly sqrtf s3 fly
  jitterFly rng s4 fly

/-- The range-`for` loop of `update` over `fireflies`, with `k` iterations
left and the iterator at slot `i`.  The loop takes `begin()` and `end()` once,
before its first iteration, and `erase(begin())` moves the elements of the
contiguous storage of the vector one slot down without touching the slot of
the former last element: `stale` holds the slots between the present end of
the vector and the end the loop took, and the iterator reads slot `i` of the
storage `fireflies ++ stale`. -/
def updateLoop (sqrtf : ℚ → ℚ) (rng : Nat → Nat) (dtime : ℚ) :
    Nat → Nat → List Nat → Application → Application × List Nat
  | 0, _, stale, s => (s, stale)
  | k + 1, i, stale, s =>
    let fly := (s.fireflies ++ stale).getD i 0
    let s1 := flyBody sqrtf rng dtime s fly
    if s1.fireflies.length > NUMBER_OF_FIREFLIES - FIREFLIES_PER_CLICK then
      updateLoop sqrtf rng dtime k (i + 1) (s1.fireflies.getLastD 0 :: stale)
        { s1 with fireflies := s1.fireflies.tail }
    else
      updateLoop sqrtf rng dtime k (i + 1) stale s1

/-- Embedding of `Application::update`. -/
def update (sqrtf : ℚ → ℚ) (rng : Nat → Nat) (dtime : ℚ) (s : Application) : Application :=
  (updateLoop sqrtf rng dtime s.fireflies.length 0 [] s).1

/-- Shape of the particles the loop of `mouseCallback` creates. -/
def Spawned (wx wy : ℚ) (p : Particle) : Prop :=
  p.position = ⟨wx, wy, -2⟩ ∧ p.forces = 0 ∧
  7 / 10 ≤ p.mass ∧ p.mass ≤ 12 / 10 ∧
  -(15 / 100) ≤ p.velocity.x ∧ p.velocity.x ≤ 15 / 100 ∧
  -(15 / 100) ≤ p.velocity.y ∧ p.velocity.y ≤ 15 / 100 ∧
  -(15 / 100) ≤ p.velocity.z ∧ p.velocity.z ≤ 15 / 100

/-- The state `s` with `L` for its `fireflies` vector. -/
def withFireflies (s : Application) (L : List Nat) : Application :=
  { s with fireflies := L }

/-- The state `s` with the particle `P` at address `fly` and `c` calls of
`rand()` made. -/
def setFly (s : Application) (fly : Nat) (P : Particle) (c : Nat) : Application :=
  { s with heap := Function.update s.heap fly P, randCalls := c }

/-- The addresses the iterator of the loop of `update` reads, in order: the
trace of `updateLoop` on the vector `live`, which depends on nothing but the
vector. -/
def processedLoop : Nat → Nat → List Nat → List Nat → List Nat
  | 0, _, _, _ => []
  | k + 1, i, stale, live =>
    (live ++ stale).getD i 0 ::
      (if live.length > NUMBER_OF_FIREFLIES - FIREFLIES_PER_CLICK then
        processedLoop k (i + 1) (live.getLastD 0 :: stale) live.tail
      else processedLoop k (i + 1) stale live)

/-- The addresses one call of `update` applies the loop body to, in order. -/
def processed (fireflies : List Nat) : List Nat :=
  processedLoop fireflies.length 0 [] fireflies

/-- The force the attraction rule computes for a firefly at `pos` from the
value `r` of `rand()`. -/
def centerForce (sqrtf : ℚ → ℚ) (r : Nat) (pos : Vec3) : Vec3 :=
  (centerPoint - pos).scale
    (Vec3.length sqrtf (centerPoint - pos) / 25 * generateRandomFloat r (1 / 10) (25 / 100))

/-- The force the gravity rule adds. -/
def gravityForce : Vec3 := ⟨0, -(25 / 100), 0⟩

/-- The force one magnet at `q` adds to a firefly at `p`; zero stands for no
call of `addForce`. -/
def magnetForce (sqrtf : ℚ → ℚ) (p q : Vec3) : Vec3 :=
  if Vec3.length sqrtf (p - q) < 1 then p - q else 0

/-- The random force drawn when `c` calls of `rand()` have been made. -/
def jitterForce (rng : Nat → Nat) (c : Nat) : Vec3 :=
  ⟨generateRandomFloat (rng c) (-(15 / 100)) (15 / 100),
   generateRandomFloat (rng (c + 1)) (-(15 / 100)) (15 / 100),
   generateRandomFloat (rng (c + 2)) (-(15 / 100)) (15 / 100)⟩

/-- The forces one pass of the loop body, started in state `s`, applies to a
firefly that stands at `pos` once integrated, in the order of application;
`magnetPos` gives the positions of the magnets. -/
def appliedForces (sqrtf : ℚ → ℚ) (rng : Nat → Nat) (s : Application) (magnetPos : Nat → Vec3)
    (pos : Vec3) : List Vec3 :=
  (if s.isCenterPointAttractive then centerForce sqrtf (rng s.randCalls) pos else 0) ::
  (if s.isGravityOn then gravityForce else 0) ::
  (s.magnets.map (fun m => magnetForce sqrtf pos (magnetPos m)) ++
    [jitterForce rng (s.randCalls + if s.isCenterPointAttractive then 1 else 0)])

/-- A square root on the rationals for the closed examples: exact on the
squares of rationals, rounded down to a multiple of `1 / den` otherwise. -/
def qsqrt (q : ℚ) : ℚ := (Nat.sqrt (q.num.toNat * q.den) : ℚ) / q.den

/-- No address is both in `magnets` and in `fireflies`, the addresses in use
are below `next`, and no address is twice in `fireflies`: what holds of the
two vectors since every address pushed comes from a `new` of its own. -/
def Separated (s : Application) : Prop :=
  (∀ q ∈ s.magnets, q ∉ s.fireflies) ∧ (∀ q ∈ s.fireflies, q < s.next) ∧
    (∀ q ∈ s.magnets, q < s.next) ∧ s.fireflies.Nodup

/-- Example state: a firefly of mass 1 at address 0, at rest at `(0, 0, -2)`
with the force `(1, 0, 0)` accumulated, and a magnet of mass 2 at address 1,
at `(d, 0, -2)`; all toggles off. -/
def flyAndMagnetAt (d : ℚ) : Application :=
  { init with
    heap := fun a =>
      if a = 0 then Particle.new 1 ⟨0, 0, -2⟩ 0 ⟨1, 0, 0⟩ else Particle.new 2 ⟨d, 0, -2⟩ 0 0
    next := 2
    fireflies := [0]
    magnets := [1] }

/-- Example state with the magnet at distance `3/5` of the firefly. -/
def flyAndMagnet : Application := flyAndMagnetAt (3 / 5)

/-- Example state: the initial state after one mouse press at the middle of
an 800 x 600 framebuffer, with `rand()` returning 0 at every call. -/
def afterClick : Application :=
  mouseCallback (fun _ => 0) GLFW_PRESS 400 300 800 600 init

instance (wx wy : ℚ) (p : Particle) : Decidable (Spawned wx wy p) := by
  unfold Spawned
  infer_instance

instance (s : Application) : Decidable (Separated s) := by
  unfold Separated
  infer_instance

/-- What the frame loop delivers to the application: a key event, a mouse
button event (with the cursor position and framebuffer size the callback asks
for), or a call of `update`. -/
inductive Event where
  | key (key action : Int)
  | mouse (action : Int) (posX posY : ℚ) (width height : Int)
  | tick (dtime : ℚ)

/-- Effect of one event on the state. -/
def step (sqrtf : ℚ → ℚ) (rng : Nat → Nat) (s : Application) : Event → Application
  | Event.key key action => keyCallback key action s
  | Event.mouse action posX posY width height => mouseCallback rng action posX posY width height s
  | Event.tick dtime => update sqrtf rng dtime s

/-- Effect of a sequence of events, first element first. -/
def run (sqrtf : ℚ → ℚ) (rng : Nat → Nat) (evs : List Event) (s : Application) : Application :=
  evs.foldl (step sqrtf rng) s

/-- Outcome of the call `update(dtime)` for its caller: the body of
`Application::update` holds no `throw` and no test on `dtime`, and
`Particle::update` never fails, so the outcome is always the updated state. -/
def updateOutcome (sqrtf : ℚ → ℚ) (rng : Nat → Nat) (dtime : ℚ) (s : Application) :
    Except String Application :=
  Except.ok (update sqrtf rng dtime s)

/-- The local `dtime = 0.1f` of `main`, the argument of every call of `update`
the program makes. -/
def mainDtime : ℚ := 1 / 10

/-- Example state: the initial state after one mouse press at the middle of
an 800 x 600 framebuffer, with `rand()` returning 50 at every call. -/
def afterClick50 : Application :=
  mouseCallback (fun _ => 50) GLFW_PRESS 400 300 800 600 init

/-- Example event: a mouse press at the middle of an 800 x 600 framebuffer. -/
def pressMiddle : Event := Event.mouse GLFW_PRESS 400 300 800 600

/-- Example states: the initial state after `n` mouse presses at the middle of
an 800 x 600 framebuffer, with `rand()` returning 0 at every call. -/
def clicks : Nat → Application
  | 0 => init
  | n + 1 => mouseCallback (fun _ => 0) GLFW_PRESS 400 300 800 600 (clicks n)

/-- Whether an event is a mouse button event. -/
def Event.isMouse : Event → Bool
  | Event.mouse _ _ _ _ _ => true
  | _ => false

/-- The indices `f` at which the first loop of `drawObjects` writes
`lightsArray[f]`: `f = 0, ..., fireflies.size() - 1`.  The array has
`NUMBER_OF_FIREFLIES` elements. -/
def lightsArrayWrites (s : Application) : List Nat :=
  List.range s.fireflies.length

/-- One iteration of the loop of `main` after its `render` call, which reads
the state without changing it: `update(dtime)`, then `glfwPollEvents()`, which
delivers the events `polled` to the callbacks. -/
def frame (sqrtf : ℚ → ℚ) (rng : Nat → Nat) (s : Application) (polled : List Event) :
    Application :=
  run sqrtf rng polled (update sqrtf rng mainDtime s)

/-- The states on which the loop of `main` calls `render`, when the
successive calls of `glfwPollEvents()` deliver the events of `polls`: the loop
renders at the start of each iteration, as long as the window is not to
close, and the last state listed is the one rendered after the last poll
given. -/
def renderStates (sqrtf : ℚ → ℚ) (rng : Nat → Nat) :
    List (List Event) → Application → List Application
  | [], s => if s.windowShouldClose then [] else [s]
  | polled :: rest, s =>
    if s.windowShouldClose then [] else s :: renderStates sqrtf rng rest (frame sqrtf rng s polled)

end Application

/-! ## Vectors -/

namespace Vec3

@[simp]
theorem zero_x : (0 : Vec3).x = 0 := rfl
@[simp]
theorem zero_y : (0 : Vec3).y = 0 := rfl
@[simp]
theorem zero_z : (0 : Vec3).z = 0 := rfl
@[simp]
theorem add_x (a b : Vec3) : (a + b).x = a.x + b.x := rfl
@[simp]
theorem add_y (a b : Vec3) : (a + b).y = a.y + b.y := rfl
@[simp]
theorem add_z (a b : Vec3) : (a + b).z = a.z + b.z := rfl
@[simp]
theorem sub_x (a b : Vec3) : (a - b).x = a.x - b.x := rfl
@[simp]
theorem sub_y (a b : Vec3) : (a - b).y = a.y - b.y := rfl
@[simp]
theorem sub_z (a b : Vec3) : (a - b).z = a.z - b.z := rfl
@[simp]
theorem scale_x (v : Vec3) (s : ℚ) : (v.scale s).x = v.x * s := rfl
@[simp]
theorem scale_y (v : Vec3) (s : ℚ) : (v.scale s).y = v.y * s := rfl
@[simp]
theorem scale_z (v : Vec3) (s : ℚ) : (v.scale s).z = v.z * s := rfl
@[simp]
theorem divs_x (v : Vec3) (s : ℚ) : (v.divs s).x = v.x / s := rfl
@[simp]
theorem divs_y (v : Vec3) (s : ℚ) : (v.divs s).y = v.y / s := rfl
@[simp]
theorem divs_z (v : Vec3) (s : ℚ) : (v.divs s).z = v.z / s := rfl

theorem zero_def : Vec3.zero = 0 := rfl

end Vec3

/-! ## `Particle` -/

namespace Particle

theorem addForce_eq (p : Particle) (f : Vec3) : p.addForce f = { p with forces := p.forces + f } := rfl

@[simp]
theorem addForce_forces (p : Particle) (f : Vec3) : (p.addForce f).forces = p.forces + f := rfl
@[simp]
theorem addForce_mass (p : Particle) (f : Vec3) : (p.addForce f).mass = p.mass := rfl
@[simp]
theorem addForce_position (p : Particle) (f : Vec3) : (p.addForce f).position = p.position := rfl
@[simp]
theorem addForce_velocity (p : Particle) (f : Vec3) : (p.addForce f).velocity = p.velocity := rfl

theorem addForces_forces (fs : List Vec3) (p : Particle) :
    (p.addForces fs).forces = p.forces + fs.sum := by
  induction fs generalizing p with
  | nil => simp [addForces]
  | cons f fs ih =>
    have h := ih (p.addForce f)
    simp only [addForces, List.foldl_cons] at h ⊢
    rw [h, addForce_forces, List.sum_cons, add_assoc]

/-- C1: for a particle of mass `m > 0`, `update(dt)` leaves velocity
`v + (F/m)*dt`, position `x + (v + (F/m)*dt)*dt` (the step of the position
uses the new velocity) and the mass unchanged; from `x = v = 0` the velocity
is `(F/m)*dt` and the position is the new velocity times `dt`. -/
theorem update_semi_implicit (p : Particle) (dt : ℚ) (hm : 0 < p.mass) :
    (p.update dt).velocity =
        ⟨p.velocity.x + p.forces.x / p.mass * dt, p.velocity.y + p.forces.y / p.mass * dt,
         p.velocity.z + p.forces.z / p.mass * dt⟩ ∧
    (p.update dt).position =
        ⟨p.position.x + (p.velocity.x + p.forces.x / p.mass * dt) * dt,
         p.position.y + (p.velocity.y + p.forces.y / p.mass * dt) * dt,
         p.position.z + (p.velocity.z + p.forces.z / p.mass * dt) * dt⟩ ∧
    (p.update dt).mass = p.mass ∧
    (p.position = 0 → p.velocity = 0 →
      (p.update dt).velocity = (p.forces.divs p.mass).scale dt ∧
      (p.update dt).position = (p.update dt).velocity.scale dt) := by
  have _ := hm
  refine ⟨by ext <;> simp [update], by ext <;> simp [update], rfl, ?_⟩
  intro hx hv
  constructor <;> ext <;> simp [update, hx, hv]

theorem update_semi_implicit_witness :
    ((0 : ℚ) < (Particle.new 2 ⟨1, 0, 0⟩ ⟨0, 1, 0⟩ ⟨4, 0, 2⟩).mass ∧
      ((Particle.new 2 ⟨1, 0, 0⟩ ⟨0, 1, 0⟩ ⟨4, 0, 2⟩).update (1 / 2)).velocity = ⟨1, 1, 1 / 2⟩ ∧
      ((Particle.new 2 ⟨1, 0, 0⟩ ⟨0, 1, 0⟩ ⟨4, 0, 2⟩).update (1 / 2)).position
        = ⟨3 / 2, 1 / 2, 1 / 4⟩) ∧
    ((0 : ℚ) < (Particle.new 2 0 0 ⟨4, 0, 2⟩).mass ∧
      (Particle.new 2 0 0 ⟨4, 0, 2⟩).position = 0 ∧
      (Particle.new 2 0 0 ⟨4, 0, 2⟩).velocity = 0 ∧
      ((Particle.new 2 0 0 ⟨4, 0, 2⟩).update (1 / 2)).position
        = ((Particle.new 2 0 0 ⟨4, 0, 2⟩).update (1 / 2)).velocity.scale (1 / 2)) := by
  have hm : (0 : ℚ) < (Particle.new 2 ⟨1, 0, 0⟩ ⟨0, 1, 0⟩ ⟨4, 0, 2⟩).mass := by
    norm_num [Particle.new]
  have hm0 : (0 : ℚ) < (Particle.new 2 0 0 ⟨4, 0, 2⟩).mass := by
    norm_num [Particle.new]
  have h := update_semi_implicit (Particle.new 2 ⟨1, 0, 0⟩ ⟨0, 1, 0⟩ ⟨4, 0, 2⟩) (1 / 2) hm
  refine ⟨⟨hm, ?_, ?_⟩, hm0, rfl, rfl,
    ((update_semi_implicit (Particle.new 2 0 0 ⟨4, 0, 2⟩) (1 / 2) hm0).2.2.2 rfl rfl).2⟩
  · rw [h.1]; norm_num [Particle.new]
  · rw [h.2.1]; norm_num [Particle.new]

/-- C5: after `update(dt)` followed by `addForce(f1)`, ..., `addForce(fn)` the
accumulator is the componentwise sum `f1 + ... + fn`, whatever was accumulated
before the update; the forces added in another order give the same
accumulator; with no force added it is the zero vector. -/
theorem forces_after_update_addForces (p : Particle) (dt : ℚ) (fs fs' : List Vec3)
    (hperm : fs'.Perm fs) :
    ((p.update dt).addForces fs).forces = fs.sum ∧
    ((p.update dt).addForces fs').forces = ((p.update dt).addForces fs).forces ∧
    ((p.update dt).addForces []).forces = 0 := by
  have h0 : (p.update dt).forces = 0 := rfl
  refine ⟨?_, ?_, ?_⟩
  · rw [addForces_forces, h0, zero_add]
  · rw [addForces_forces, addForces_forces, hperm.sum_eq]
  · rfl

theorem forces_after_update_addForces_witness :
    ((((Particle.new 1 0 0 ⟨7, 7, 7⟩).update 1).addForces [⟨1, 2, 3⟩, ⟨0, 1, 0⟩]).forces
        = ([⟨1, 2, 3⟩, ⟨0, 1, 0⟩] : List Vec3).sum) ∧
    (((Particle.new 1 0 0 ⟨7, 7, 7⟩).update 1).addForces [⟨0, 1, 0⟩, ⟨1, 2, 3⟩]).forces
        = (((Particle.new 1 0 0 ⟨7, 7, 7⟩).update 1).addForces [⟨1, 2, 3⟩, ⟨0, 1, 0⟩]).forces :=
  have h := forces_after_update_addForces (Particle.new 1 0 0 ⟨7, 7, 7⟩) 1
    [⟨1, 2, 3⟩, ⟨0, 1, 0⟩] [⟨0, 1, 0⟩, ⟨1, 2, 3⟩] (List.Perm.swap _ _ [])
  ⟨h.1, h.2.1⟩

/-- C10 as stated fails: the constructor called with mass `-1` (and with
mass `0`) reports no error and yields a particle of that mass. -/
theorem construct_nonpositive_mass_ok :
    (-1 : ℚ) ≤ 0 ∧
    Particle.construct (-1) 0 0 0 = Except.ok ⟨-1, 0, 0, 0⟩ ∧
    Particle.construct 0 0 0 0 = Except.ok ⟨0, 0, 0, 0⟩ :=
  ⟨by norm_num, rfl, rfl⟩

/-- C10 amended: the constructor never fails and never tests the mass: for
every `m`, positive or not, it yields the particle with exactly the given
mass, position, velocity and forces. -/
theorem construct_total (m : ℚ) (x v f : Vec3) :
    Particle.construct m x v f
      = Except.ok { mass := m, position := x, velocity := v, forces := f } := rfl

end Particle

/-! ## Callbacks -/

namespace Application

/-- C9: a key event for G, M or C negates the toggle of that key when the
action is a release and keeps it otherwise, and changes nothing else of the
state: the other two toggles, the fireflies and the magnets stay as they are. -/
theorem keyCallback_toggles (action : Int) (s : Application) :
    keyCallback GLFW_KEY_G action s =
      { s with isGravityOn := if action = GLFW_RELEASE then !s.isGravityOn else s.isGravityOn } ∧
    keyCallback GLFW_KEY_M action s =
      { s with isMagnetModeOn :=
          if action = GLFW_RELEASE then !s.isMagnetModeOn else s.isMagnetModeOn } ∧
    keyCallback GLFW_KEY_C action s =
      { s with isCenterPointAttractive :=
          if action = GLFW_RELEASE then !s.isCenterPointAttractive
          else s.isCenterPointAttractive } := by
  refine ⟨?_, ?_, ?_⟩ <;>
    by_cases h : action = GLFW_RELEASE <;>
    simp [keyCallback, h, GLFW_KEY_G, GLFW_KEY_M, GLFW_KEY_C, GLFW_KEY_ESCAPE, GLFW_KEY_Z,
      GLFW_KEY_TAB]

theorem generateRandomFloat_bounds (r : Nat) (lo hi : ℚ) (h : lo ≤ hi) :
    lo ≤ generateRandomFloat r lo hi ∧ generateRandomFloat r lo hi ≤ hi := by
  have h0 : (0 : ℚ) ≤ ((r % 100 : Nat) : ℚ) / 100 := by positivity
  have h1 : ((r % 100 : Nat) : ℚ) / 100 ≤ 1 := by
    have hlt : r % 100 < 100 := Nat.mod_lt _ (by norm_num)
    have hq : ((r % 100 : Nat) : ℚ) ≤ 100 := by exact_mod_cast hlt.le
    rw [div_le_one (by norm_num)]
    exact hq
  unfold generateRandomFloat
  constructor <;> nlinarith

theorem spawnLoop_fireflies (rng : Nat → Nat) (wx wy : ℚ) (k : Nat) (s : Application) :
    (spawnLoop rng wx wy k s).fireflies
      = s.fireflies ++ (List.range k).map (fun i => s.next + i) := by
  induction k generalizing s with
  | zero => simp [spawnLoop]
  | succ k ih =>
    rw [spawnLoop, ih, List.range_succ_eq_map]
    simp [alloc, Function.comp_def, Nat.add_assoc, Nat.add_comm 1]

theorem spawnLoop_frame (rng : Nat → Nat) (wx wy : ℚ) (k : Nat) (s : Application) :
    (spawnLoop rng wx wy k s).magnets = s.magnets ∧
    (spawnLoop rng wx wy k s).isGravityOn = s.isGravityOn ∧
    (spawnLoop rng wx wy k s).isMagnetModeOn = s.isMagnetModeOn ∧
    (spawnLoop rng wx wy k s).isCenterPointAttractive = s.isCenterPointAttractive ∧
    (spawnLoop rng wx wy k s).next = s.next + k := by
  induction k generalizing s with
  | zero => simp [spawnLoop]
  | succ k ih =>
    rw [spawnLoop]
    obtain ⟨h1, h2, h3, h4, h5⟩ := ih
      { s.alloc (Particle.new (generateRandomFloat (rng (s.randCalls + 3)) (7 / 10) (12 / 10))
          ⟨wx, wy, -2⟩
          ⟨generateRandomFloat (rng s.randCalls) (-(15 / 100)) (15 / 100),
           generateRandomFloat (rng (s.randCalls + 1)) (-(15 / 100)) (15 / 100),
           generateRandomFloat (rng (s.randCalls + 2)) (-(15 / 100)) (15 / 100)⟩ ⟨0, 0, 0⟩)
        with fireflies := s.fireflies ++ [s.next], randCalls := s.randCalls + 4 }
    refine ⟨h1, h2, h3, h4, ?_⟩
    rw [h5]
    simp [alloc, Nat.add_assoc, Nat.add_comm 1]

theorem spawnLoop_heap_old (rng : Nat → Nat) (wx wy : ℚ) (k : Nat) (s : Application)
    (q : Nat) (hq : q < s.next) :
    (spawnLoop rng wx wy k s).heap q = s.heap q := by
  induction k generalizing s with
  | zero => simp [spawnLoop]
  | succ k ih =>
    rw [spawnLoop, ih]
    · simp [alloc, Function.update_noteq (Nat.ne_of_lt hq)]
    · show q < s.next + 1
      omega

theorem spawnLoop_heap_new (rng : Nat → Nat) (wx wy : ℚ) (k : Nat) (s : Application)
    (i : Nat) (hi : i < k) :
    Spawned wx wy ((spawnLoop rng wx wy k s).heap (s.next + i)) := by
  induction k generalizing s i with
  | zero => omega
  | succ k ih =>
    rw [spawnLoop]
    cases i with
    | zero =>
      rw [spawnLoop_heap_old]
      · have hm := generateRandomFloat_bounds (rng (s.randCalls + 3)) (7 / 10) (12 / 10)
          (by norm_num)
        have hx := generateRandomFloat_bounds (rng s.randCalls) (-(15 / 100)) (15 / 100)
          (by norm_num)
        have hy := generateRandomFloat_bounds (rng (s.randCalls + 1)) (-(15 / 100)) (15 / 100)
          (by norm_num)
        have hz := generateRandomFloat_bounds (rng (s.randCalls + 2)) (-(15 / 100)) (15 / 100)
          (by norm_num)
        simp only [alloc, Nat.add_zero, Function.update_same, Particle.new]
        exact ⟨rfl, rfl, hm.1, hm.2, hx.1, hx.2, hy.1, hy.2, hz.1, hz.2⟩
      · simp [alloc]
    | succ j =>
      have h := ih
        { s.alloc (Particle.new (generateRandomFloat (rng (s.randCalls + 3)) (7 / 10) (12 / 10))
            ⟨wx, wy, -2⟩
            ⟨generateRandomFloat (rng s.randCalls) (-(15 / 100)) (15 / 100),
             generateRandomFloat (rng (s.randCalls + 1)) (-(15 / 100)) (15 / 100),
             generateRandomFloat (rng (s.randCalls + 2)) (-(15 / 100)) (15 / 100)⟩ ⟨0, 0, 0⟩)
          with fireflies := s.fireflies ++ [s.next], randCalls := s.randCalls + 4 }
        j (Nat.lt_of_succ_lt_succ hi)
      have e : s.next + (j + 1) = s.next + 1 + j := by omega
      rw [e]
      exact h

/-- C8: a mouse press with magnet mode off, cursor at `(posX, posY)` and a
framebuffer of positive size appends to `fireflies` exactly
`FIREFLIES_PER_CLICK = 10` new particles (at the ten fresh addresses), each at
`(4*posX/width - 2, -2*posY/height + 1, -2)` with zero force, mass in
`[0.7, 1.2]` and velocity components in `[-0.15, 0.15]`, whatever `rand()`
returns; the particles allocated before, the magnets and the toggles are
unchanged. -/
theorem mouseCallback_spawns_batch (rng : Nat → Nat) (posX posY : ℚ) (width height : Int)
    (s : Application) (hw : 0 < width) (hh : 0 < height) (hoff : s.isMagnetModeOn = false) :
    (mouseCallback rng GLFW_PRESS posX posY width height s).fireflies
      = s.fireflies ++ (List.range 10).map (fun i => s.next + i) ∧
    (∀ i, i < 10 →
      Spawned (4 * posX / width - 2) (-2 * posY / height + 1)
        ((mouseCallback rng GLFW_PRESS posX posY width height s).heap (s.next + i))) ∧
    (∀ q, q < s.next →
      (mouseCallback rng GLFW_PRESS posX posY width height s).heap q = s.heap q) ∧
    (mouseCallback rng GLFW_PRESS posX posY width height s).magnets = s.magnets ∧
    (mouseCallback rng GLFW_PRESS posX posY width height s).isGravityOn = s.isGravityOn ∧
    (mouseCallback rng GLFW_PRESS posX posY width height s).isMagnetModeOn = s.isMagnetModeOn ∧
    (mouseCallback rng GLFW_PRESS posX posY width height s).isCenterPointAttractive
      = s.isCenterPointAttractive := by
  have _ := hw
  have _ := hh
  have e : mouseCallback rng GLFW_PRESS posX posY width height s
      = spawnLoop rng (4 * posX / width - 2) (-2 * posY / height + 1) 10 s := by
    simp [mouseCallback, hoff, FIREFLIES_PER_CLICK]
  rw [e]
  obtain ⟨h1, h2, h3, h4, _⟩ :=
    spawnLoop_frame rng (4 * posX / width - 2) (-2 * posY / height + 1) 10 s
  exact ⟨spawnLoop_fireflies _ _ _ _ _, fun i hi => spawnLoop_heap_new _ _ _ _ _ i hi,
    fun q hq => spawnLoop_heap_old _ _ _ _ _ q hq, h1, h2, h3, h4⟩

/-! ## The loop body of `update` -/

theorem setFly_self (s : Application) (fly : Nat) : s.setFly fly (s.heap fly) s.randCalls = s := by
  simp [setFly]

theorem addForce_zero (P : Particle) : P.addForce 0 = P := by
  ext <;> simp

theorem integrateFly_setFly (dtime : ℚ) (s : Application) (fly : Nat) (P : Particle) (c : Nat) :
    integrateFly dtime (s.setFly fly P c) fly = s.setFly fly (P.update dtime) c := by
  simp [integrateFly, setFly, modify]

theorem attractFly_setFly (sqrtf : ℚ → ℚ) (rng : Nat → Nat) (s : Application) (fly : Nat)
    (P : Particle) (c : Nat) :
    attractFly sqrtf rng (s.setFly fly P c) fly
      = s.setFly fly
          (P.addForce (if s.isCenterPointAttractive then centerForce sqrtf (rng c) P.position
            else 0))
          (c + if s.isCenterPointAttractive then 1 else 0) := by
  by_cases h : s.isCenterPointAttractive = true
  · simp [attractFly, setFly, modify, h, centerForce]
  · simp [attractFly, setFly, modify, h, addForce_zero]

theorem gravitateFly_setFly (s : Application) (fly : Nat) (P : Particle) (c : Nat) :
    gravitateFly (s.setFly fly P c) fly
      = s.setFly fly (P.addForce (if s.isGravityOn then gravityForce else 0)) c := by
  by_cases h : s.isGravityOn = true
  · simp [gravitateFly, setFly, modify, h, gravityForce]
  · simp [gravitateFly, setFly, modify, h, addForce_zero]

theorem magnetStep_setFly (sqrtf : ℚ → ℚ) (s : Application) (fly : Nat) (P : Particle) (c : Nat)
    (mag : Nat) :
    magnetStep sqrtf fly (s.setFly fly P c) mag
      = s.setFly fly
          (P.addForce (magnetForce sqrtf P.position (Function.update s.heap fly P mag).position))
          c := by
  by_cases h : Vec3.length sqrtf (P.position - (Function.update s.heap fly P mag).position) < 1
  · simp [magnetStep, setFly, modify, magnetForce, h]
  · simp [magnetStep, setFly, modify, magnetForce, h, addForce_zero]

theorem magnetFold_setFly (sqrtf : ℚ → ℚ) (s : Application) (fly : Nat) (c : Nat)
    (ms : List Nat) (P : Particle) :
    ms.foldl (magnetStep sqrtf fly) (s.setFly fly P c)
      = s.setFly fly
          (P.addForces (ms.map fun m =>
            magnetForce sqrtf P.position (Function.update s.heap fly P m).position))
          c := by
  induction ms generalizing P with
  | nil => rfl
  | cons m ms ih =>
    rw [List.foldl_cons, magnetStep_setFly, ih]
    congr 1
    simp only [Particle.addForces, List.map_cons, List.foldl_cons, Particle.addForce_position]
    congr 2
    funext a
    by_cases ha : a = fly
    · subst ha; simp
    · simp [Function.update_noteq ha]

theorem jitterFly_setFly (rng : Nat → Nat) (s : Application) (fly : Nat) (P : Particle) (c : Nat) :
    jitterFly rng (s.setFly fly P c) fly = s.setFly fly (P.addForce (jitterForce rng c)) (c + 3) := by
  simp [jitterFly, setFly, modify, jitterForce]

theorem update_position_congr (h : Nat → Particle) (fly : Nat) (P Q : Particle)
    (hpos : P.position = Q.position) (m : Nat) :
    (Function.update h fly P m).position = (Function.update h fly Q m).position := by
  by_cases hm : m = fly
  · subst hm; simpa using hpos
  · simp [Function.update_noteq hm]

/-- Closed form of one pass of the loop body: the particle is integrated
first, with the forces it had accumulated before, and the forces of this pass
are added afterwards to the zeroed accumulator. -/
theorem flyBody_eq (sqrtf : ℚ → ℚ) (rng : Nat → Nat) (dtime : ℚ) (s : Application) (fly : Nat) :
    flyBody sqrtf rng dtime s fly
      = s.setFly fly
          (((s.heap fly).update dtime).addForces
            (appliedForces sqrtf rng s
              (fun m => (Function.update s.heap fly ((s.heap fly).update dtime) m).position)
              ((s.heap fly).update dtime).position))
          (s.randCalls + (if s.isCenterPointAttractive then 1 else 0) + 3) := by
  unfold flyBody
  dsimp only
  conv_lhs => rw [← setFly_self s fly]
  rw [integrateFly_setFly, attractFly_setFly, gravitateFly_setFly, repelFly, ]
  have hm : (s.setFly fly
      ((((s.heap fly).update dtime).addForce
          (if s.isCenterPointAttractive then
            centerForce sqrtf (rng s.randCalls) ((s.heap fly).update dtime).position
           else 0)).addForce (if s.isGravityOn then gravityForce else 0))
      (s.randCalls + if s.isCenterPointAttractive then 1 else 0)).magnets = s.magnets := rfl
  rw [hm, magnetFold_setFly, jitterFly_setFly]
  congr 1
  simp only [appliedForces, Particle.addForces, List.foldl_cons, List.foldl_append,
    List.foldl_nil, Particle.addForce_position]
  congr 3
  funext m
  congr 1
  apply update_position_congr
  simp

theorem flyBody_withFireflies (sqrtf : ℚ → ℚ) (rng : Nat → Nat) (dtime : ℚ) (s : Application)
    (fly : Nat) (L : List Nat) :
    flyBody sqrtf rng dtime (s.withFireflies L) fly
      = (flyBody sqrtf rng dtime s fly).withFireflies L := by
  rw [flyBody_eq, flyBody_eq]
  rfl

theorem flyBody_fold_withFireflies (sqrtf : ℚ → ℚ) (rng : Nat → Nat) (dtime : ℚ)
    (tr : List Nat) (s : Application) (L : List Nat) :
    tr.foldl (flyBody sqrtf rng dtime) (s.withFireflies L)
      = (tr.foldl (flyBody sqrtf rng dtime) s).withFireflies L := by
  induction tr generalizing s with
  | nil => rfl
  | cons a tr ih => rw [List.foldl_cons, List.foldl_cons, flyBody_withFireflies, ih]

theorem flyBody_fireflies (sqrtf : ℚ → ℚ) (rng : Nat → Nat) (dtime : ℚ) (s : Application)
    (fly : Nat) : (flyBody sqrtf rng dtime s fly).fireflies = s.fireflies := by
  rw [flyBody_eq]
  rfl

theorem flyBody_magnets (sqrtf : ℚ → ℚ) (rng : Nat → Nat) (dtime : ℚ) (s : Application)
    (fly : Nat) : (flyBody sqrtf rng dtime s fly).magnets = s.magnets := by
  rw [flyBody_eq]
  rfl

theorem flyBody_heap_other (sqrtf : ℚ → ℚ) (rng : Nat → Nat) (dtime : ℚ) (s : Application)
    (fly q : Nat) (hq : q ≠ fly) : (flyBody sqrtf rng dtime s fly).heap q = s.heap q := by
  rw [flyBody_eq]
  exact Function.update_noteq hq _ _

theorem flyBody_fold_fireflies (sqrtf : ℚ → ℚ) (rng : Nat → Nat) (dtime : ℚ)
    (tr : List Nat) (s : Application) :
    (tr.foldl (flyBody sqrtf rng dtime) s).fireflies = s.fireflies := by
  induction tr generalizing s with
  | nil => rfl
  | cons a tr ih => rw [List.foldl_cons, ih, flyBody_fireflies]

theorem flyBody_fold_magnets (sqrtf : ℚ → ℚ) (rng : Nat → Nat) (dtime : ℚ)
    (tr : List Nat) (s : Application) :
    (tr.foldl (flyBody sqrtf rng dtime) s).magnets = s.magnets := by
  induction tr generalizing s with
  | nil => rfl
  | cons a tr ih => rw [List.foldl_cons, ih, flyBody_magnets]

theorem flyBody_fold_heap_other (sqrtf : ℚ → ℚ) (rng : Nat → Nat) (dtime : ℚ)
    (tr : List Nat) (s : Application) (q : Nat) (hq : q ∉ tr) :
    (tr.foldl (flyBody sqrtf rng dtime) s).heap q = s.heap q := by
  induction tr generalizing s with
  | nil => rfl
  | cons a tr ih =>
    rw [List.foldl_cons, ih _ (fun h => hq (List.mem_cons_of_mem _ h)),
      flyBody_heap_other _ _ _ _ _ _ (fun h => hq (by rw [h]; exact List.mem_cons_self _ _))]

/-! ## The loop of `update` -/

theorem withFireflies_fireflies (s : Application) (L : List Nat) :
    (s.withFireflies L).fireflies = L := rfl

theorem withFireflies_magnets (s : Application) (L : List Nat) :
    (s.withFireflies L).magnets = s.magnets := rfl

theorem withFireflies_heap (s : Application) (L : List Nat) :
    (s.withFireflies L).heap = s.heap := rfl

theorem withFireflies_next (s : Application) (L : List Nat) :
    (s.withFireflies L).next = s.next := rfl

theorem withFireflies_withFireflies (s : Application) (L L' : List Nat) :
    (s.withFireflies L).withFireflies L' = s.withFireflies L' := rfl

theorem updateLoop_succ (sqrtf : ℚ → ℚ) (rng : Nat → Nat) (dtime : ℚ) (k i : Nat)
    (stale : List Nat) (s : Application) :
    updateLoop sqrtf rng dtime (k + 1) i stale s
      = if s.fireflies.length > NUMBER_OF_FIREFLIES - FIREFLIES_PER_CLICK then
          updateLoop sqrtf rng dtime k (i + 1) (s.fireflies.getLastD 0 :: stale)
            ((flyBody sqrtf rng dtime s ((s.fireflies ++ stale).getD i 0)).withFireflies
              s.fireflies.tail)
        else
          updateLoop sqrtf rng dtime k (i + 1) stale
            (flyBody sqrtf rng dtime s ((s.fireflies ++ stale).getD i 0)) := by
  rw [updateLoop]
  simp only [flyBody_fireflies]
  rfl

theorem drop_tail_min (L : List Nat) (k : Nat) (h : L.length > 490) :
    L.tail.drop (min k (L.tail.length - 490)) = L.drop (min (k + 1) (L.length - 490)) := by
  cases L with
  | nil => simp at h
  | cons a L =>
    simp only [List.tail_cons, List.length_cons] at h ⊢
    have e : min (k + 1) (L.length + 1 - 490) = min k (L.length - 490) + 1 := by omega
    rw [e, List.drop_succ_cons]

theorem updateLoop_eq (sqrtf : ℚ → ℚ) (rng : Nat → Nat) (dtime : ℚ) (k i : Nat)
    (stale : List Nat) (s : Application) :
    (updateLoop sqrtf rng dtime k i stale s).1
      = ((processedLoop k i stale s.fireflies).foldl (flyBody sqrtf rng dtime) s).withFireflies
          (s.fireflies.drop (min k (s.fireflies.length - 490))) := by
  induction k generalizing i stale s with
  | zero =>
    simp [updateLoop, processedLoop, withFireflies]
  | succ k ih =>
    rw [updateLoop_succ, processedLoop, List.foldl_cons]
    by_cases h : s.fireflies.length > NUMBER_OF_FIREFLIES - FIREFLIES_PER_CLICK
    · rw [if_pos h, if_pos h, ih, withFireflies_fireflies, flyBody_fold_withFireflies,
        withFireflies_withFireflies, drop_tail_min _ _ h]
    · rw [if_neg h, if_neg h, ih, flyBody_fireflies]
      have e : s.fireflies.length - 490 = 0 := by
        simp only [NUMBER_OF_FIREFLIES, FIREFLIES_PER_CLICK] at h
        omega
      rw [e]
      simp

theorem update_eq (sqrtf : ℚ → ℚ) (rng : Nat → Nat) (dtime : ℚ) (s : Application) :
    update sqrtf rng dtime s
      = ((processed s.fireflies).foldl (flyBody sqrtf rng dtime) s).withFireflies
          (s.fireflies.drop (s.fireflies.length - 490)) := by
  have e : min s.fireflies.length (s.fireflies.length - 490) = s.fireflies.length - 490 := by
    omega
  rw [update, updateLoop_eq, processed, e]

theorem processedLoop_subset (k i : Nat) (stale live : List Nat)
    (h : i + k ≤ live.length + stale.length) :
    ∀ x ∈ processedLoop k i stale live, x ∈ live ∨ x ∈ stale := by
  induction k generalizing i stale live with
  | zero => simp [processedLoop]
  | succ k ih =>
    intro x hx
    rw [processedLoop, List.mem_cons] at hx
    rcases hx with hx | hx
    · have hlt : i < (live ++ stale).length := by rw [List.length_append]; omega
      have hmem : x ∈ live ++ stale := by
        rw [hx, List.getD_eq_getElem _ _ hlt]
        exact List.getElem_mem _
      exact List.mem_append.mp hmem
    · by_cases hc : live.length > NUMBER_OF_FIREFLIES - FIREFLIES_PER_CLICK
      · rw [if_pos hc] at hx
        have hne : live ≠ [] := by
          intro e
          rw [e] at hc
          simp at hc
        have hlen : i + 1 + k ≤ live.tail.length + (live.getLastD 0 :: stale).length := by
          rw [List.length_tail, List.length_cons]
          have : 0 < live.length := List.length_pos.mpr hne
          omega
        rcases ih (i + 1) _ _ hlen x hx with h1 | h1
        · exact Or.inl (List.mem_of_mem_tail h1)
        · rw [List.mem_cons] at h1
          rcases h1 with h1 | h1
          · left
            rw [h1, List.getLastD_eq_getLast?, List.getLast?_eq_getLast _ hne]
            exact List.getLast_mem hne
          · exact Or.inr h1
      · rw [if_neg hc] at hx
        exact ih (i + 1) _ _ (by omega) x hx

theorem processed_subset (L : List Nat) : ∀ x ∈ processed L, x ∈ L := by
  intro x hx
  rcases processedLoop_subset L.length 0 [] L (by simp) x hx with h | h
  · exact h
  · simp at h

theorem update_magnets (sqrtf : ℚ → ℚ) (rng : Nat → Nat) (dtime : ℚ) (s : Application) :
    (update sqrtf rng dtime s).magnets = s.magnets := by
  rw [update_eq, withFireflies_magnets]
  exact flyBody_fold_magnets _ _ _ _ _

theorem update_fireflies (sqrtf : ℚ → ℚ) (rng : Nat → Nat) (dtime : ℚ) (s : Application) :
    (update sqrtf rng dtime s).fireflies = s.fireflies.drop (s.fireflies.length - 490) := by
  rw [update_eq, withFireflies_fireflies]

theorem update_heap_other (sqrtf : ℚ → ℚ) (rng : Nat → Nat) (dtime : ℚ) (s : Application)
    (q : Nat) (hq : q ∉ s.fireflies) : (update sqrtf rng dtime s).heap q = s.heap q := by
  rw [update_eq, withFireflies_heap]
  exact flyBody_fold_heap_other _ _ _ _ _ q (fun h => hq (processed_subset _ q h))

/-- C4: when `update(dt)` returns, `fireflies` holds exactly the last
`min(n, 490)` addresses of the `n` it held at the start, in their order: only
front entries are removed, until the size is at most
`NUMBER_OF_FIREFLIES - FIREFLIES_PER_CLICK = 490`. -/
theorem update_keeps_last_entries (sqrtf : ℚ → ℚ) (rng : Nat → Nat) (dtime : ℚ)
    (s : Application) :
    (update sqrtf rng dtime s).fireflies
        = s.fireflies.drop
            (s.fireflies.length
              - min s.fireflies.length (NUMBER_OF_FIREFLIES - FIREFLIES_PER_CLICK)) ∧
    (update sqrtf rng dtime s).fireflies.length
        = min s.fireflies.length (NUMBER_OF_FIREFLIES - FIREFLIES_PER_CLICK) := by
  rw [update_fireflies]
  have e : NUMBER_OF_FIREFLIES - FIREFLIES_PER_CLICK = 490 := rfl
  rw [e]
  have e' : s.fireflies.length - min s.fireflies.length 490 = s.fireflies.length - 490 := by
    omega
  rw [e', List.length_drop]
  exact ⟨rfl, by omega⟩

theorem run_append (sqrtf : ℚ → ℚ) (rng : Nat → Nat) (evs evs' : List Event) (s : Application) :
    run sqrtf rng (evs ++ evs') s = run sqrtf rng evs' (run sqrtf rng evs s) := by
  simp [run, List.foldl_append]

/-- C2: from the empty collections, after any finite sequence of events
(mouse presses, which spawn fireflies while magnet mode is off, key events,
and calls of `update`, any number of events between two calls), `fireflies`
holds at most `NUMBER_OF_FIREFLIES = 500` entries right after every call of
`update`. -/
theorem fireflies_le_cap_after_update (sqrtf : ℚ → ℚ) (rng : Nat → Nat) (evs : List Event)
    (dtime : ℚ) :
    (run sqrtf rng (evs ++ [Event.tick dtime]) init).fireflies.length ≤ NUMBER_OF_FIREFLIES := by
  rw [run_append]
  show (update sqrtf rng dtime (run sqrtf rng evs init)).fireflies.length ≤ 500
  rw [update_fireflies, List.length_drop]
  omega

theorem updates_magnets_aux (sqrtf : ℚ → ℚ) (rng : Nat → Nat) (dts : List ℚ) (s : Application)
    (hdisj : ∀ q ∈ s.magnets, q ∉ s.fireflies) :
    (dts.foldl (fun st dt => update sqrtf rng dt st) s).magnets = s.magnets ∧
    ∀ q ∈ s.magnets, (dts.foldl (fun st dt => update sqrtf rng dt st) s).heap q = s.heap q := by
  induction dts generalizing s with
  | nil => exact ⟨rfl, fun _ _ => rfl⟩
  | cons dt dts ih =>
    have hm := update_magnets sqrtf rng dt s
    have hd : ∀ q ∈ (update sqrtf rng dt s).magnets, q ∉ (update sqrtf rng dt s).fireflies := by
      intro q hq hf
      rw [hm] at hq
      rw [update_fireflies] at hf
      exact hdisj q hq (List.mem_of_mem_drop hf)
    obtain ⟨h1, h2⟩ := ih (update sqrtf rng dt s) hd
    rw [List.foldl_cons]
    refine ⟨h1.trans hm, fun q hq => ?_⟩
    rw [h2 q (hm ▸ hq), update_heap_other _ _ _ _ _ (hdisj q hq)]

/-- C7: calls of `update` never change the magnets: from a state in which no
magnet is also in `fireflies`, after any number of calls, with any time steps,
`magnets` is the same sequence (so of the same length) and every magnet has
the mass, position, velocity and force accumulator it had. -/
theorem updates_preserve_magnets (sqrtf : ℚ → ℚ) (rng : Nat → Nat) (dts : List ℚ)
    (s : Application) (hdisj : ∀ q ∈ s.magnets, q ∉ s.fireflies) :
    (dts.foldl (fun st dt => update sqrtf rng dt st) s).magnets = s.magnets ∧
    (dts.foldl (fun st dt => update sqrtf rng dt st) s).magnets.length = s.magnets.length ∧
    ∀ q ∈ s.magnets,
      ((dts.foldl (fun st dt => update sqrtf rng dt st) s).heap q).mass = (s.heap q).mass ∧
      ((dts.foldl (fun st dt => update sqrtf rng dt st) s).heap q).position
        = (s.heap q).position ∧
      ((dts.foldl (fun st dt => update sqrtf rng dt st) s).heap q).velocity
        = (s.heap q).velocity ∧
      ((dts.foldl (fun st dt => update sqrtf rng dt st) s).heap q).forces = (s.heap q).forces := by
  obtain ⟨h1, h2⟩ := updates_magnets_aux sqrtf rng dts s hdisj
  refine ⟨h1, by rw [h1], fun q hq => ?_⟩
  rw [h2 q hq]
  exact ⟨rfl, rfl, rfl, rfl⟩

theorem processedLoop_of_le (k i : Nat) (live : List Nat) (hlen : live.length ≤ 490)
    (h : i + k ≤ live.length) :
    processedLoop k i [] live = (live.drop i).take k := by
  induction k generalizing i with
  | zero => simp [processedLoop]
  | succ k ih =>
    have hc : ¬ live.length > NUMBER_OF_FIREFLIES - FIREFLIES_PER_CLICK := by
      show ¬ live.length > 490
      omega
    have hi : i < live.length := by omega
    rw [processedLoop, if_neg hc, ih (i + 1) (by omega), List.append_nil,
      List.getD_eq_getElem _ _ hi, List.drop_eq_getElem_cons hi, List.take_succ_cons]

theorem processed_of_le (L : List Nat) (hlen : L.length ≤ 490) : processed L = L := by
  rw [processed, processedLoop_of_le _ _ _ hlen (by omega), List.drop_zero, List.take_length]

theorem fold_flyBody_once (sqrtf : ℚ → ℚ) (rng : Nat → Nat) (dtime : ℚ) (fly : Nat)
    (tr : List Nat) (s : Application) (honce : tr.count fly = 1) :
    (tr.foldl (flyBody sqrtf rng dtime) s).heap fly
        = (flyBody sqrtf rng dtime
            ((tr.take (tr.indexOf fly)).foldl (flyBody sqrtf rng dtime) s) fly).heap fly ∧
    fly ∉ tr.take (tr.indexOf fly) := by
  induction tr generalizing s with
  | nil => simp at honce
  | cons a tr ih =>
    by_cases ha : a = fly
    · subst ha
      have hnot : a ∉ tr := by
        rw [List.count_cons_self] at honce
        exact List.count_eq_zero.mp (by omega)
      rw [List.indexOf_cons_self, List.take_zero, List.foldl_nil, List.foldl_cons,
        flyBody_fold_heap_other _ _ _ _ _ _ hnot]
      exact ⟨rfl, List.not_mem_nil _⟩
    · have hc : tr.count fly = 1 := by
        rw [List.count_cons_of_ne (fun h => ha h.symm)] at honce
        exact honce
      obtain ⟨h1, h2⟩ := ih (flyBody sqrtf rng dtime s a) hc
      rw [List.indexOf_cons_ne _ ha, List.take_succ_cons, List.foldl_cons, List.foldl_cons]
      refine ⟨h1, ?_⟩
      intro hmem
      rcases List.mem_cons.mp hmem with h | h
      · exact ha h.symm
      · exact h2 h

theorem appliedForces_congr (sqrtf : ℚ → ℚ) (rng : Nat → Nat) (s : Application)
    (f g : Nat → Vec3) (pos : Vec3) (h : ∀ m ∈ s.magnets, f m = g m) :
    appliedForces sqrtf rng s f pos = appliedForces sqrtf rng s g pos := by
  unfold appliedForces
  congr 3
  apply List.map_congr_left
  intro m hm
  rw [h m hm]

theorem update_velocity_eq (p : Particle) (dt : ℚ) :
    (p.update dt).velocity = p.velocity + (p.forces.divs p.mass).scale dt := rfl

/-- C3 amended: `update` integrates a firefly first and applies the forces of
the call afterwards.  For a firefly the loop processes exactly once (every
firefly, when the call starts with at most 490 distinct ones), in a state
where no magnet is also a firefly: when the call returns, its velocity is the
velocity before the call plus (accumulator before the call / mass) * dt, and
its accumulator is not reset but holds the sum of the forces applied in this
call (attraction, gravity, magnets, jitter, computed at its new position),
which the next call will integrate. -/
theorem update_integrates_then_accumulates (sqrtf : ℚ → ℚ) (rng : Nat → Nat) (dtime : ℚ)
    (s : Application) (fly : Nat)
    (hdisj : ∀ q ∈ s.magnets, q ∉ s.fireflies)
    (honce : (processed s.fireflies).count fly = 1) :
    ((update sqrtf rng dtime s).heap fly).velocity
        = (s.heap fly).velocity + ((s.heap fly).forces.divs (s.heap fly).mass).scale dtime ∧
    ((update sqrtf rng dtime s).heap fly).forces
        = (appliedForces sqrtf rng
            (((processed s.fireflies).take ((processed s.fireflies).indexOf fly)).foldl
              (flyBody sqrtf rng dtime) s)
            (fun m => (s.heap m).position)
            ((update sqrtf rng dtime s).heap fly).position).sum := by
  obtain ⟨h1, h2⟩ := fold_flyBody_once sqrtf rng dtime fly (processed s.fireflies) s honce
  have hpre : (((processed s.fireflies).take ((processed s.fireflies).indexOf fly)).foldl
      (flyBody sqrtf rng dtime) s).heap fly = s.heap fly :=
    flyBody_fold_heap_other _ _ _ _ _ fly h2
  have hfly : fly ∈ s.fireflies :=
    processed_subset _ fly (List.count_pos_iff.mp (by omega))
  have hmag : ∀ m ∈ (((processed s.fireflies).take ((processed s.fireflies).indexOf fly)).foldl
      (flyBody sqrtf rng dtime) s).magnets,
      (Function.update
        (((processed s.fireflies).take ((processed s.fireflies).indexOf fly)).foldl
          (flyBody sqrtf rng dtime) s).heap fly ((s.heap fly).update dtime) m).position
        = (s.heap m).position := by
    intro m hm
    rw [flyBody_fold_magnets] at hm
    have hne : m ≠ fly := fun e => hdisj m hm (e ▸ hfly)
    rw [Function.update_noteq hne, flyBody_fold_heap_other]
    intro hmem
    exact hdisj m hm (processed_subset _ m (List.mem_of_mem_take hmem))
  have key : (update sqrtf rng dtime s).heap fly
      = ((s.heap fly).update dtime).addForces
          (appliedForces sqrtf rng
            (((processed s.fireflies).take ((processed s.fireflies).indexOf fly)).foldl
              (flyBody sqrtf rng dtime) s)
            (fun m => (s.heap m).position) ((s.heap fly).update dtime).position) := by
    rw [update_eq, withFireflies_heap, h1, flyBody_eq, hpre]
    simp only [setFly, Function.update_same]
    rw [appliedForces_congr _ _ _ _ _ _ hmag]
  have hpos : ((update sqrtf rng dtime s).heap fly).position
      = ((s.heap fly).update dtime).position := by
    rw [key]
    simp only [Particle.addForces]
    generalize appliedForces sqrtf rng _ _ _ = fs
    generalize (s.heap fly).update dtime = P
    induction fs generalizing P with
    | nil => rfl
    | cons f fs ih => rw [List.foldl_cons, ih, Particle.addForce_position]
  have hvel : ((update sqrtf rng dtime s).heap fly).velocity
      = ((s.heap fly).update dtime).velocity := by
    rw [key]
    simp only [Particle.addForces]
    generalize appliedForces sqrtf rng _ _ _ = fs
    generalize (s.heap fly).update dtime = P
    induction fs generalizing P with
    | nil => rfl
    | cons f fs ih => rw [List.foldl_cons, ih, Particle.addForce_velocity]
  refine ⟨by rw [hvel, update_velocity_eq], ?_⟩
  rw [hpos, key, Particle.addForces_forces]
  show (0 : Vec3) + _ = _
  rw [zero_add]

theorem qsqrt_nine_twentyfifths : qsqrt (9 / 25) = 3 / 5 := by
  have h : Nat.sqrt (Int.toNat 9 * 25) = 15 := Nat.sqrt_eq 15
  norm_num [qsqrt, h]

theorem qsqrt_one : qsqrt 1 = 1 := by
  norm_num [qsqrt]

theorem qsqrt_zero : qsqrt 0 = 0 := by
  norm_num [qsqrt]

theorem update_integrates_then_accumulates_witness :
    (∀ q ∈ flyAndMagnet.magnets, q ∉ flyAndMagnet.fireflies) ∧
    (processed flyAndMagnet.fireflies).count 0 = 1 ∧
    ((update qsqrt (fun _ => 0) 1 flyAndMagnet).heap 0).velocity
        = (flyAndMagnet.heap 0).velocity
          + ((flyAndMagnet.heap 0).forces.divs (flyAndMagnet.heap 0).mass).scale 1 :=
  ⟨by decide, by decide,
    (update_integrates_then_accumulates qsqrt (fun _ => 0) 1 flyAndMagnet 0 (by decide)
      (by decide)).1⟩

/-- C6: in the loop over the magnets, for a firefly at `p` and a magnet at `q`
the magnet adds exactly `p - q` to the accumulator of the firefly when
`glm::length(p - q) < 1` and changes nothing when the length is `1` or more;
so at length exactly `1` the firefly gets no force from the magnet, and at a
length strictly between `0` and `1` it gets the offset itself, which is not
zero (`sqrtf 0 = 0` is what the square root of the library gives). -/
theorem magnetStep_adds_offset (sqrtf : ℚ → ℚ) (s : Application) (fly mag : Nat) :
    (Vec3.length sqrtf ((s.heap fly).position - (s.heap mag).position) < 1 →
      magnetStep sqrtf fly s mag
          = s.modify fly (fun P => P.addForce ((s.heap fly).position - (s.heap mag).position)) ∧
      ((magnetStep sqrtf fly s mag).heap fly).forces
          = (s.heap fly).forces + ((s.heap fly).position - (s.heap mag).position)) ∧
    (1 ≤ Vec3.length sqrtf ((s.heap fly).position - (s.heap mag).position) →
      magnetStep sqrtf fly s mag = s) ∧
    (Vec3.length sqrtf ((s.heap fly).position - (s.heap mag).position) = 1 →
      ((magnetStep sqrtf fly s mag).heap fly).forces = (s.heap fly).forces) ∧
    (sqrtf 0 = 0 →
      0 < Vec3.length sqrtf ((s.heap fly).position - (s.heap mag).position) →
      Vec3.length sqrtf ((s.heap fly).position - (s.heap mag).position) < 1 →
      (s.heap fly).position - (s.heap mag).position ≠ 0 ∧
      ((magnetStep sqrtf fly s mag).heap fly).forces
          = (s.heap fly).forces + ((s.heap fly).position - (s.heap mag).position)) := by
  have hin : Vec3.length sqrtf ((s.heap fly).position - (s.heap mag).position) < 1 →
      magnetStep sqrtf fly s mag
          = s.modify fly (fun P => P.addForce ((s.heap fly).position - (s.heap mag).position)) ∧
      ((magnetStep sqrtf fly s mag).heap fly).forces
          = (s.heap fly).forces + ((s.heap fly).position - (s.heap mag).position) := by
    intro h
    have e : magnetStep sqrtf fly s mag
        = s.modify fly (fun P => P.addForce ((s.heap fly).position - (s.heap mag).position)) := by
      unfold magnetStep
      exact if_pos h
    refine ⟨e, ?_⟩
    rw [e]
    simp [modify]
  have hout : 1 ≤ Vec3.length sqrtf ((s.heap fly).position - (s.heap mag).position) →
      magnetStep sqrtf fly s mag = s := by
    intro h
    unfold magnetStep
    exact if_neg (not_lt.mpr h)
  refine ⟨hin, hout, fun h => by rw [hout h.ge], fun h0 hpos hlt => ⟨?_, (hin hlt).2⟩⟩
  intro hz
  rw [hz] at hpos
  have : Vec3.length sqrtf 0 = 0 := by
    simp [Vec3.length, Vec3.normSq, h0]
  rw [this] at hpos
  exact lt_irrefl _ hpos

theorem magnetStep_adds_offset_witness :
    (qsqrt 0 = 0 ∧
      0 < Vec3.length qsqrt ((flyAndMagnet.heap 0).position - (flyAndMagnet.heap 1).position) ∧
      Vec3.length qsqrt ((flyAndMagnet.heap 0).position - (flyAndMagnet.heap 1).position) < 1 ∧
      ((magnetStep qsqrt 0 flyAndMagnet 1).heap 0).forces
        = (flyAndMagnet.heap 0).forces
          + ((flyAndMagnet.heap 0).position - (flyAndMagnet.heap 1).position)) ∧
    (Vec3.length qsqrt
        (((flyAndMagnetAt 1).heap 0).position - ((flyAndMagnetAt 1).heap 1).position) = 1 ∧
      1 ≤ Vec3.length qsqrt
        (((flyAndMagnetAt 1).heap 0).position - ((flyAndMagnetAt 1).heap 1).position) ∧
      magnetStep qsqrt 0 (flyAndMagnetAt 1) 1 = flyAndMagnetAt 1 ∧
      ((magnetStep qsqrt 0 (flyAndMagnetAt 1) 1).heap 0).forces
        = ((flyAndMagnetAt 1).heap 0).forces) := by
  have hlen : Vec3.length qsqrt
      ((flyAndMagnet.heap 0).position - (flyAndMagnet.heap 1).position) = 3 / 5 := by
    have e : Vec3.normSq ((flyAndMagnet.heap 0).position - (flyAndMagnet.heap 1).position)
        = 9 / 25 := by
      norm_num [Vec3.normSq, flyAndMagnet, flyAndMagnetAt, Particle.new]
    rw [Vec3.length, e, qsqrt_nine_twentyfifths]
  have hlt : Vec3.length qsqrt
      ((flyAndMagnet.heap 0).position - (flyAndMagnet.heap 1).position) < 1 := by
    rw [hlen]; norm_num
  have hpos : 0 < Vec3.length qsqrt
      ((flyAndMagnet.heap 0).position - (flyAndMagnet.heap 1).position) := by
    rw [hlen]; norm_num
  have hone : Vec3.length qsqrt
      (((flyAndMagnetAt 1).heap 0).position - ((flyAndMagnetAt 1).heap 1).position) = 1 := by
    have e : Vec3.normSq
        (((flyAndMagnetAt 1).heap 0).position - ((flyAndMagnetAt 1).heap 1).position) = 1 := by
      norm_num [Vec3.normSq, flyAndMagnetAt, Particle.new]
    rw [Vec3.length, e, qsqrt_one]
  exact ⟨⟨qsqrt_zero, hpos, hlt,
      ((magnetStep_adds_offset qsqrt flyAndMagnet 0 1).2.2.2 qsqrt_zero hpos hlt).2⟩,
    hone, hone.ge, (magnetStep_adds_offset qsqrt (flyAndMagnetAt 1) 0 1).2.1 hone.ge,
    (magnetStep_adds_offset qsqrt (flyAndMagnetAt 1) 0 1).2.2.1 hone⟩

theorem updates_preserve_magnets_witness :
    (∀ q ∈ flyAndMagnet.magnets, q ∉ flyAndMagnet.fireflies) ∧
    (([1 / 10, 1 / 5] : List ℚ).foldl (fun st dt => update qsqrt (fun n => n) dt st)
        flyAndMagnet).magnets = flyAndMagnet.magnets ∧
    ((([1 / 10, 1 / 5] : List ℚ).foldl (fun st dt => update qsqrt (fun n => n) dt st)
        flyAndMagnet).heap 1).position = (flyAndMagnet.heap 1).position :=
  ⟨by decide,
    (updates_preserve_magnets qsqrt (fun n => n) [1 / 10, 1 / 5] flyAndMagnet (by decide)).1,
    ((updates_preserve_magnets qsqrt (fun n => n) [1 / 10, 1 / 5] flyAndMagnet
      (by decide)).2.2 1 (by decide)).2.1⟩

theorem mouseCallback_spawns_batch_witness :
    (0 : Int) < 800 ∧ (0 : Int) < 600 ∧ init.isMagnetModeOn = false ∧
    (mouseCallback (fun n => n) GLFW_PRESS 400 300 800 600 init).fireflies
      = init.fireflies ++ (List.range 10).map (fun i => init.next + i) ∧
    Spawned (4 * 400 / ((800 : Int) : ℚ) - 2) (-2 * 300 / ((600 : Int) : ℚ) + 1)
      ((mouseCallback (fun n => n) GLFW_PRESS 400 300 800 600 init).heap (init.next + 3)) :=
  ⟨by decide, by decide, rfl,
    (mouseCallback_spawns_batch (fun n => n) 400 300 800 600 init (by decide) (by decide) rfl).1,
    (mouseCallback_spawns_batch (fun n => n) 400 300 800 600 init (by decide) (by decide)
      rfl).2.1 3 (by decide)⟩

/-! ## The vectors stay separated -/

theorem flyBody_next (sqrtf : ℚ → ℚ) (rng : Nat → Nat) (dtime : ℚ) (s : Application)
    (fly : Nat) : (flyBody sqrtf rng dtime s fly).next = s.next := by
  rw [flyBody_eq]
  rfl

theorem flyBody_fold_next (sqrtf : ℚ → ℚ) (rng : Nat → Nat) (dtime : ℚ)
    (tr : List Nat) (s : Application) :
    (tr.foldl (flyBody sqrtf rng dtime) s).next = s.next := by
  induction tr generalizing s with
  | nil => rfl
  | cons a tr ih => rw [List.foldl_cons, ih, flyBody_next]

theorem update_next (sqrtf : ℚ → ℚ) (rng : Nat → Nat) (dtime : ℚ) (s : Application) :
    (update sqrtf rng dtime s).next = s.next := by
  rw [update_eq, withFireflies_next]
  exact flyBody_fold_next _ _ _ _ _

theorem update_separated (sqrtf : ℚ → ℚ) (rng : Nat → Nat) (dtime : ℚ) (s : Application)
    (h : Separated s) : Separated (update sqrtf rng dtime s) := by
  obtain ⟨h1, h2, h3, h4⟩ := h
  unfold Separated
  rw [update_magnets, update_fireflies, update_next]
  exact ⟨fun q hq hf => h1 q hq (List.mem_of_mem_drop hf),
    fun q hq => h2 q (List.mem_of_mem_drop hq), h3,
    h4.sublist (List.drop_sublist _ _)⟩

theorem keyCallback_separated (key action : Int) (s : Application) (h : Separated s) :
    Separated (keyCallback key action s) := by
  obtain ⟨h1, h2, h3, h4⟩ := h
  unfold keyCallback
  split_ifs
  all_goals first
    | exact ⟨h1, h2, h3, h4⟩
    | exact ⟨by simp, by simp, by simp, List.nodup_nil⟩

theorem mouseCallback_separated (rng : Nat → Nat) (action : Int) (posX posY : ℚ)
    (width height : Int) (s : Application) (h : Separated s) :
    Separated (mouseCallback rng action posX posY width height s) := by
  obtain ⟨h1, h2, h3, h4⟩ := h
  unfold mouseCallback
  by_cases ha : action = GLFW_PRESS
  · rw [if_pos ha]
    dsimp only
    by_cases hm : s.isMagnetModeOn = true
    · simp only [hm, Bool.not_true, Bool.false_eq_true, if_false]
      refine ⟨?_, ?_, ?_, h4⟩
      · intro q hq hf
        rcases List.mem_append.mp hq with hq | hq
        · exact h1 q hq hf
        · rw [List.mem_singleton] at hq
          have := h2 q hf
          omega
      · intro q hq
        have := h2 q hq
        show q < s.next + 1
        omega
      · intro q hq
        show q < s.next + 1
        rcases List.mem_append.mp hq with hq | hq
        · have := h3 q hq
          omega
        · rw [List.mem_singleton] at hq
          omega
    · have hoff : s.isMagnetModeOn = false := by simpa using hm
      simp only [hoff, Bool.not_false, if_true]
      obtain ⟨f1, _, _, _, f5⟩ := spawnLoop_frame rng (4 * posX / width - 2)
        (-2 * posY / height + 1) FIREFLIES_PER_CLICK s
      unfold Separated
      rw [f1, f5, spawnLoop_fireflies]
      refine ⟨?_, ?_, ?_, ?_⟩
      · intro q hq hf
        rcases List.mem_append.mp hf with hf | hf
        · exact h1 q hq hf
        · obtain ⟨i, _, hi⟩ := List.mem_map.mp hf
          have := h3 q hq
          omega
      · intro q hq
        rcases List.mem_append.mp hq with hq | hq
        · have := h2 q hq
          omega
        · obtain ⟨i, hi, hq⟩ := List.mem_map.mp hq
          rw [List.mem_range] at hi
          omega
      · intro q hq
        have := h3 q hq
        omega
      · rw [List.nodup_append]
        refine ⟨h4, ?_, ?_⟩
        · exact (List.nodup_range _).map (fun a b hab => by omega)
        · intro q hq hq'
          obtain ⟨i, _, hi⟩ := List.mem_map.mp hq'
          have := h2 q hq
          omega
  · rw [if_neg ha]
    exact ⟨h1, h2, h3, h4⟩

theorem init_separated : Separated init :=
  ⟨by simp [init], by simp [init], by simp [init], by simp [init]⟩

/-- Every state the program reaches from its initial state has its two
vectors separated. -/
theorem run_separated (sqrtf : ℚ → ℚ) (rng : Nat → Nat) (evs : List Event) (s : Application)
    (h : Separated s) : Separated (run sqrtf rng evs s) := by
  induction evs generalizing s with
  | nil => exact h
  | cons ev evs ih =>
    apply ih
    cases ev with
    | key key action => exact keyCallback_separated key action s h
    | mouse action posX posY width height =>
      exact mouseCallback_separated rng action posX posY width height s h
    | tick dtime => exact update_separated sqrtf rng dtime s h

theorem spawnLoop_heap_new_eq (rng : Nat → Nat) (wx wy : ℚ) (k : Nat) (s : Application)
    (i : Nat) (hi : i < k) :
    (spawnLoop rng wx wy k s).heap (s.next + i)
      = Particle.new (generateRandomFloat (rng (s.randCalls + 4 * i + 3)) (7 / 10) (12 / 10))
          ⟨wx, wy, -2⟩
          ⟨generateRandomFloat (rng (s.randCalls + 4 * i)) (-(15 / 100)) (15 / 100),
           generateRandomFloat (rng (s.randCalls + 4 * i + 1)) (-(15 / 100)) (15 / 100),
           generateRandomFloat (rng (s.randCalls + 4 * i + 2)) (-(15 / 100)) (15 / 100)⟩
          ⟨0, 0, 0⟩ := by
  induction k generalizing s i with
  | zero => omega
  | succ k ih =>
    rw [spawnLoop]
    cases i with
    | zero =>
      rw [spawnLoop_heap_old]
      · simp only [alloc, Nat.add_zero, Nat.mul_zero, Function.update_same]
      · simp [alloc]
    | succ j =>
      have h := ih
        { s.alloc (Particle.new (generateRandomFloat (rng (s.randCalls + 3)) (7 / 10) (12 / 10))
            ⟨wx, wy, -2⟩
            ⟨generateRandomFloat (rng s.randCalls) (-(15 / 100)) (15 / 100),
             generateRandomFloat (rng (s.randCalls + 1)) (-(15 / 100)) (15 / 100),
             generateRandomFloat (rng (s.randCalls + 2)) (-(15 / 100)) (15 / 100)⟩ ⟨0, 0, 0⟩)
          with fireflies := s.fireflies ++ [s.next], randCalls := s.randCalls + 4 }
        j (Nat.lt_of_succ_lt_succ hi)
      have e : s.next + (j + 1) = s.next + 1 + j := by omega
      have e0 : s.randCalls + 4 * (j + 1) = s.randCalls + 4 + 4 * j := by omega
      rw [e, e0]
      exact h

theorem afterClick_eq : afterClick = spawnLoop (fun _ => 0) 0 0 10 init := by
  norm_num [afterClick, mouseCallback, init, FIREFLIES_PER_CLICK, GLFW_PRESS]

theorem afterClick_fireflies : afterClick.fireflies = [0, 1, 2, 3, 4, 5, 6, 7, 8, 9] := by
  rw [afterClick_eq, spawnLoop_fireflies]
  decide

theorem afterClick_heap_zero :
    afterClick.heap 0
      = ⟨7 / 10, ⟨0, 0, -2⟩, ⟨-(3 / 20), -(3 / 20), -(3 / 20)⟩, ⟨0, 0, 0⟩⟩ := by
  rw [afterClick_eq]
  have h := spawnLoop_heap_new_eq (fun _ => 0) 0 0 10 init 0 (by norm_num)
  rw [show init.next + 0 = 0 from rfl] at h
  rw [h]
  norm_num [Particle.new, generateRandomFloat]

theorem afterClick_frame :
    afterClick.magnets = [] ∧ afterClick.isGravityOn = false ∧
    afterClick.isCenterPointAttractive = false := by
  obtain ⟨h1, h2, _, h4, _⟩ := spawnLoop_frame (fun _ => 0) 0 0 10 init
  rw [afterClick_eq, h1, h2, h4]
  exact ⟨rfl, rfl, rfl⟩

theorem afterClick_update_heap_zero :
    (update qsqrt (fun _ => 0) 1 afterClick).heap 0
      = ⟨7 / 10, ⟨-(3 / 20), -(3 / 20), -(43 / 20)⟩, ⟨-(3 / 20), -(3 / 20), -(3 / 20)⟩,
          ⟨-(3 / 20), -(3 / 20), -(3 / 20)⟩⟩ := by
  have hp : processed afterClick.fireflies = [0, 1, 2, 3, 4, 5, 6, 7, 8, 9] := by
    rw [afterClick_fireflies]
    decide
  obtain ⟨hm, hg, hc⟩ := afterClick_frame
  rw [update_eq, hp, withFireflies_heap, List.foldl_cons,
    flyBody_fold_heap_other _ _ _ _ _ 0 (by decide), flyBody_eq]
  simp only [setFly, Function.update_same, appliedForces, hm, hg, hc, afterClick_heap_zero]
  norm_num [Particle.addForces, Particle.addForce, Particle.update, jitterForce,
    generateRandomFloat, Vec3.zero_def]
  refine ⟨?_, ?_⟩ <;> ext <;> norm_num

/-- C3 as stated fails: in the state after one mouse press (ten fireflies of
mass 0.7 and velocity `(-0.15, -0.15, -0.15)`, empty accumulators, toggles
off, no magnet, `rand()` returning 0), the call `update(1)` applies the
jitter `(-0.15, -0.15, -0.15)` to the first firefly; when it returns, the
velocity of that firefly is the velocity before the call, not that velocity
plus `(jitter / mass) * dt`, and its accumulator holds the jitter, not zero. -/
theorem update_applies_forces_after_integration :
    ((update qsqrt (fun _ => 0) 1 afterClick).heap 0).velocity = (afterClick.heap 0).velocity ∧
    ((update qsqrt (fun _ => 0) 1 afterClick).heap 0).velocity
      ≠ (afterClick.heap 0).velocity
          + ((jitterForce (fun _ => 0) afterClick.randCalls).divs (afterClick.heap 0).mass).scale 1 ∧
    ((update qsqrt (fun _ => 0) 1 afterClick).heap 0).forces = ⟨-(3 / 20), -(3 / 20), -(3 / 20)⟩ ∧
    ((update qsqrt (fun _ => 0) 1 afterClick).heap 0).forces ≠ 0 := by
  rw [afterClick_update_heap_zero, afterClick_heap_zero]
  refine ⟨rfl, ?_, rfl, ?_⟩
  · intro h
    have hx := congrArg Vec3.x h
    norm_num [jitterForce, generateRandomFloat] at hx
  · intro h
    have hx := congrArg Vec3.x h
    norm_num at hx

/-! ## Calls of `update` with any time step -/

theorem addForces_position (fs : List Vec3) (P : Particle) :
    (P.addForces fs).position = P.position := by
  induction fs generalizing P with
  | nil => rfl
  | cons f fs ih =>
    have h := ih (P.addForce f)
    simp only [Particle.addForces, List.foldl_cons] at h ⊢
    rw [h, Particle.addForce_position]

theorem addForces_velocity (fs : List Vec3) (P : Particle) :
    (P.addForces fs).velocity = P.velocity := by
  induction fs generalizing P with
  | nil => rfl
  | cons f fs ih =>
    have h := ih (P.addForce f)
    simp only [Particle.addForces, List.foldl_cons] at h ⊢
    rw [h, Particle.addForce_velocity]

theorem addForces_mass (fs : List Vec3) (P : Particle) :
    (P.addForces fs).mass = P.mass := by
  induction fs generalizing P with
  | nil => rfl
  | cons f fs ih =>
    have h := ih (P.addForce f)
    simp only [Particle.addForces, List.foldl_cons] at h ⊢
    rw [h, Particle.addForce_mass]

theorem flyBody_heap_self (sqrtf : ℚ → ℚ) (rng : Nat → Nat) (dtime : ℚ) (s : Application)
    (fly : Nat) :
    (flyBody sqrtf rng dtime s fly).heap fly
      = ((s.heap fly).update dtime).addForces
          (appliedForces sqrtf rng s
            (fun m => (Function.update s.heap fly ((s.heap fly).update dtime) m).position)
            ((s.heap fly).update dtime).position) := by
  rw [flyBody_eq]
  simp only [setFly, Function.update_same]

theorem update_zero_position (P : Particle) : (P.update 0).position = P.position := by
  ext <;> simp [Particle.update]

theorem update_zero_velocity (P : Particle) : (P.update 0).velocity = P.velocity := by
  ext <;> simp [Particle.update]

theorem flyBody_zero_dt (sqrtf : ℚ → ℚ) (rng : Nat → Nat) (s : Application) (fly q : Nat) :
    ((flyBody sqrtf rng 0 s fly).heap q).position = (s.heap q).position ∧
    ((flyBody sqrtf rng 0 s fly).heap q).velocity = (s.heap q).velocity := by
  by_cases hq : q = fly
  · subst hq
    rw [flyBody_heap_self, addForces_position, addForces_velocity, update_zero_position,
      update_zero_velocity]
    exact ⟨rfl, rfl⟩
  · rw [flyBody_heap_other _ _ _ _ _ _ hq]
    exact ⟨rfl, rfl⟩

theorem flyBody_fold_zero_dt (sqrtf : ℚ → ℚ) (rng : Nat → Nat) (tr : List Nat)
    (s : Application) (q : Nat) :
    ((tr.foldl (flyBody sqrtf rng 0) s).heap q).position = (s.heap q).position ∧
    ((tr.foldl (flyBody sqrtf rng 0) s).heap q).velocity = (s.heap q).velocity := by
  induction tr generalizing s with
  | nil => exact ⟨rfl, rfl⟩
  | cons a tr ih =>
    obtain ⟨h1, h2⟩ := ih (flyBody sqrtf rng 0 s a)
    obtain ⟨g1, g2⟩ := flyBody_zero_dt sqrtf rng s a q
    rw [List.foldl_cons]
    exact ⟨h1.trans g1, h2.trans g2⟩

theorem afterClick_update_heap_zero_dt (dtime : ℚ) :
    (update qsqrt (fun _ => 0) dtime afterClick).heap 0
      = ⟨7 / 10, ⟨-(3 / 20) * dtime, -(3 / 20) * dtime, -2 + -(3 / 20) * dtime⟩,
          ⟨-(3 / 20), -(3 / 20), -(3 / 20)⟩, ⟨-(3 / 20), -(3 / 20), -(3 / 20)⟩⟩ := by
  have hp : processed afterClick.fireflies = [0, 1, 2, 3, 4, 5, 6, 7, 8, 9] := by
    rw [afterClick_fireflies]
    decide
  obtain ⟨hm, hg, hc⟩ := afterClick_frame
  rw [update_eq, hp, withFireflies_heap, List.foldl_cons,
    flyBody_fold_heap_other _ _ _ _ _ 0 (by decide), flyBody_heap_self]
  simp only [appliedForces, hm, hg, hc, afterClick_heap_zero]
  norm_num [Particle.addForces, Particle.addForce, Particle.update, jitterForce,
    generateRandomFloat, Vec3.zero_def]
  refine ⟨?_, ?_⟩ <;> ext <;> norm_num

/-- C11 as stated fails: `update(-1)` on the state after one mouse press
reports no failure and moves the first firefly from `(0, 0, -2)` to
`(0.15, 0.15, -1.85)`; and `Particle::update(-1)` on a particle at rest with
the force `(1, 0, 0)` accumulated reports no failure and leaves it with the
velocity `(-1, 0, 0)`. -/
theorem update_negative_dt_not_rejected :
    (-1 : ℚ) ≤ 0 ∧
    updateOutcome qsqrt (fun _ => 0) (-1) afterClick
      = Except.ok (update qsqrt (fun _ => 0) (-1) afterClick) ∧
    (afterClick.heap 0).position = ⟨0, 0, -2⟩ ∧
    ((update qsqrt (fun _ => 0) (-1) afterClick).heap 0).position
      = ⟨3 / 20, 3 / 20, -(37 / 20)⟩ ∧
    (Particle.new 1 0 0 ⟨1, 0, 0⟩).updateOutcome (-1)
      = Except.ok ⟨1, ⟨1, 0, 0⟩, ⟨-1, 0, 0⟩, 0⟩ := by
  refine ⟨by norm_num, rfl, ?_, ?_, ?_⟩
  · rw [afterClick_heap_zero]
  · rw [afterClick_update_heap_zero_dt]
    norm_num
  · simp only [Particle.updateOutcome, Particle.update, Particle.new]
    congr 1
    ext <;> simp [Vec3.zero_def]

/-- C11 amended: `update(dt)` is not validated.  For every state and every
`dt`, positive or not, `Application::update(dt)` and `Particle::update(dt)`
report no failure and run the integration step with that `dt`; the position
and velocity of every particle are unchanged when `dt = 0` (all fireflies
having a nonzero mass), and only then in general. -/
theorem update_accepts_every_dt (sqrtf : ℚ → ℚ) (rng : Nat → Nat) (dtime : ℚ)
    (s : Application) :
    updateOutcome sqrtf rng dtime s = Except.ok (update sqrtf rng dtime s) ∧
    (∀ p : Particle, p.updateOutcome dtime = Except.ok (p.update dtime)) ∧
    (dtime = 0 → (∀ q ∈ s.fireflies, (s.heap q).mass ≠ 0) →
      ∀ q, ((update sqrtf rng dtime s).heap q).position = (s.heap q).position ∧
        ((update sqrtf rng dtime s).heap q).velocity = (s.heap q).velocity) := by
  refine ⟨rfl, fun _ => rfl, fun h0 _ q => ?_⟩
  subst h0
  rw [update_eq, withFireflies_heap]
  exact flyBody_fold_zero_dt sqrtf rng _ s q

theorem update_accepts_every_dt_witness :
    (0 : ℚ) = 0 ∧ (∀ q ∈ afterClick.fireflies, (afterClick.heap q).mass ≠ 0) ∧
    ((update qsqrt (fun _ => 0) 0 afterClick).heap 0).position = (afterClick.heap 0).position ∧
    ((update qsqrt (fun _ => 0) 0 afterClick).heap 0).velocity
      = (afterClick.heap 0).velocity := by
  have hmass : ∀ q ∈ afterClick.fireflies, (afterClick.heap q).mass ≠ 0 := by
    intro q hq
    rw [afterClick_fireflies] at hq
    have hlt : q < 10 := by
      simp only [List.mem_cons, List.mem_singleton, List.not_mem_nil, or_false] at hq
      omega
    have h := spawnLoop_heap_new_eq (fun _ => 0) 0 0 10 init q hlt
    rw [show init.next + q = q from Nat.zero_add q] at h
    rw [afterClick_eq, h]
    norm_num [Particle.new, generateRandomFloat]
  exact ⟨rfl, hmass, (update_accepts_every_dt qsqrt (fun _ => 0) 0 afterClick).2.2 rfl hmass 0⟩

/-! ## The random force -/

theorem generateRandomFloat_jitter_eq_zero_iff (r : Nat) :
    generateRandomFloat r (-(15 / 100)) (15 / 100) = 0 ↔ r % 100 = 50 := by
  unfold generateRandomFloat
  constructor
  · intro h
    have h' : ((r % 100 : Nat) : ℚ) = 50 := by linarith
    exact_mod_cast h'
  · intro h
    rw [h]
    norm_num

theorem jitterForce_eq_zero_iff (rng : Nat → Nat) (c : Nat) :
    jitterForce rng c = 0 ↔
      rng c % 100 = 50 ∧ rng (c + 1) % 100 = 50 ∧ rng (c + 2) % 100 = 50 := by
  rw [← generateRandomFloat_jitter_eq_zero_iff, ← generateRandomFloat_jitter_eq_zero_iff,
    ← generateRandomFloat_jitter_eq_zero_iff]
  constructor
  · intro h
    exact ⟨congrArg Vec3.x h, congrArg Vec3.y h, congrArg Vec3.z h⟩
  · rintro ⟨hx, hy, hz⟩
    ext
    · exact hx
    · exact hy
    · exact hz

theorem flyBody_toggles (sqrtf : ℚ → ℚ) (rng : Nat → Nat) (dtime : ℚ) (s : Application)
    (fly : Nat) :
    (flyBody sqrtf rng dtime s fly).isGravityOn = s.isGravityOn ∧
    (flyBody sqrtf rng dtime s fly).isCenterPointAttractive = s.isCenterPointAttractive ∧
    (flyBody sqrtf rng dtime s fly).randCalls
      = s.randCalls + (if s.isCenterPointAttractive then 1 else 0) + 3 := by
  rw [flyBody_eq]
  exact ⟨rfl, rfl, rfl⟩

theorem flyBody_fold_toggles (sqrtf : ℚ → ℚ) (rng : Nat → Nat) (dtime : ℚ) (tr : List Nat)
    (s : Application) (hc : s.isCenterPointAttractive = false) :
    (tr.foldl (flyBody sqrtf rng dtime) s).isGravityOn = s.isGravityOn ∧
    (tr.foldl (flyBody sqrtf rng dtime) s).isCenterPointAttractive = false ∧
    (tr.foldl (flyBody sqrtf rng dtime) s).randCalls = s.randCalls + 3 * tr.length := by
  induction tr generalizing s with
  | nil => exact ⟨rfl, hc, rfl⟩
  | cons a tr ih =>
    obtain ⟨g1, g2, g3⟩ := flyBody_toggles sqrtf rng dtime s a
    obtain ⟨h1, h2, h3⟩ := ih (flyBody sqrtf rng dtime s a) (g2.trans hc)
    rw [List.foldl_cons]
    refine ⟨h1.trans g1, h2, ?_⟩
    rw [h3, g3, hc, List.length_cons]
    simp only [Bool.false_eq_true, if_false]
    omega

theorem flyBody_forces_jitter_only (sqrtf : ℚ → ℚ) (rng : Nat → Nat) (dtime : ℚ)
    (s : Application) (fly : Nat) (hg : s.isGravityOn = false)
    (hc : s.isCenterPointAttractive = false) (hm : s.magnets = []) :
    ((flyBody sqrtf rng dtime s fly).heap fly).forces = jitterForce rng s.randCalls := by
  rw [flyBody_heap_self, Particle.addForces_forces]
  simp only [appliedForces, hg, hc, hm, Bool.false_eq_true, if_false, List.map_nil,
    List.nil_append, List.sum_cons, List.sum_nil, Nat.add_zero, add_zero, zero_add]
  show (0 : Vec3) + _ = _
  rw [zero_add]

/-- C12 amended: with gravity and center attraction off and no magnet, the
force one call of `update` adds to a firefly it processes once is the vector
of the three draws `rand() % 100 / 100 * 0.30 - 0.15` made for it, and it is
the zero vector exactly when the three values of `rand()` are all 50 modulo
100; otherwise it is not zero. -/
theorem update_jitter_zero_iff (sqrtf : ℚ → ℚ) (rng : Nat → Nat) (dtime : ℚ)
    (s : Application) (fly : Nat)
    (hg : s.isGravityOn = false) (hc : s.isCenterPointAttractive = false)
    (hm : s.magnets = []) (honce : (processed s.fireflies).count fly = 1) :
    ((update sqrtf rng dtime s).heap fly).forces
        = jitterForce rng (s.randCalls + 3 * (processed s.fireflies).indexOf fly) ∧
    (((update sqrtf rng dtime s).heap fly).forces = 0 ↔
      rng (s.randCalls + 3 * (processed s.fireflies).indexOf fly) % 100 = 50 ∧
      rng (s.randCalls + 3 * (processed s.fireflies).indexOf fly + 1) % 100 = 50 ∧
      rng (s.randCalls + 3 * (processed s.fireflies).indexOf fly + 2) % 100 = 50) := by
  obtain ⟨h1, _⟩ := fold_flyBody_once sqrtf rng dtime fly (processed s.fireflies) s honce
  obtain ⟨t1, t2, t3⟩ := flyBody_fold_toggles sqrtf rng dtime
    ((processed s.fireflies).take ((processed s.fireflies).indexOf fly)) s hc
  have hmem : fly ∈ processed s.fireflies := List.count_pos_iff.mp (by omega)
  have hlen : ((processed s.fireflies).take ((processed s.fireflies).indexOf fly)).length
      = (processed s.fireflies).indexOf fly := by
    rw [List.length_take]
    exact Nat.min_eq_left (List.indexOf_lt_length.mpr hmem).le
  have key : ((update sqrtf rng dtime s).heap fly).forces
      = jitterForce rng (s.randCalls + 3 * (processed s.fireflies).indexOf fly) := by
    rw [update_eq, withFireflies_heap, h1,
      flyBody_forces_jitter_only _ _ _ _ _ (t1.trans hg) t2
        ((flyBody_fold_magnets _ _ _ _ _).trans hm), t3, hlen]
  exact ⟨key, by rw [key]; exact jitterForce_eq_zero_iff _ _⟩

theorem afterClick50_eq : afterClick50 = spawnLoop (fun _ => 50) 0 0 10 init := by
  norm_num [afterClick50, mouseCallback, init, FIREFLIES_PER_CLICK, GLFW_PRESS]

theorem afterClick50_fireflies : afterClick50.fireflies = [0, 1, 2, 3, 4, 5, 6, 7, 8, 9] := by
  rw [afterClick50_eq, spawnLoop_fireflies]
  decide

theorem afterClick50_heap_zero :
    afterClick50.heap 0 = ⟨19 / 20, ⟨0, 0, -2⟩, ⟨0, 0, 0⟩, ⟨0, 0, 0⟩⟩ := by
  rw [afterClick50_eq]
  have h := spawnLoop_heap_new_eq (fun _ => 50) 0 0 10 init 0 (by norm_num)
  rw [show init.next + 0 = 0 from rfl] at h
  rw [h]
  norm_num [Particle.new, generateRandomFloat]

theorem afterClick50_frame :
    afterClick50.magnets = [] ∧ afterClick50.isGravityOn = false ∧
    afterClick50.isCenterPointAttractive = false := by
  obtain ⟨h1, h2, _, h4, _⟩ := spawnLoop_frame (fun _ => 50) 0 0 10 init
  rw [afterClick50_eq, h1, h2, h4]
  exact ⟨rfl, rfl, rfl⟩

theorem afterClick50_processed :
    processed afterClick50.fireflies = [0, 1, 2, 3, 4, 5, 6, 7, 8, 9] := by
  rw [afterClick50_fireflies]
  decide

/-- C12 as stated fails: when `rand()` returns 50 at every call, the state
after one mouse press has gravity and center attraction off and no magnet,
and the call `update(0.1)` adds the zero vector to the first firefly, which
stays exactly as it was: same position, zero velocity, empty accumulator. -/
theorem update_jitter_can_vanish :
    afterClick50.isGravityOn = false ∧ afterClick50.isCenterPointAttractive = false ∧
    afterClick50.magnets = [] ∧
    jitterForce (fun _ => 50) afterClick50.randCalls = 0 ∧
    ((update qsqrt (fun _ => 50) mainDtime afterClick50).heap 0).forces = 0 ∧
    (update qsqrt (fun _ => 50) mainDtime afterClick50).heap 0 = afterClick50.heap 0 := by
  obtain ⟨hm, hg, hc⟩ := afterClick50_frame
  have hj : ∀ c, jitterForce (fun _ => 50) c = 0 := fun c =>
    (jitterForce_eq_zero_iff _ c).mpr ⟨rfl, rfl, rfl⟩
  have e : (update qsqrt (fun _ => 50) mainDtime afterClick50).heap 0 = afterClick50.heap 0 := by
    rw [update_eq, afterClick50_processed, withFireflies_heap, List.foldl_cons,
      flyBody_fold_heap_other _ _ _ _ _ 0 (by decide), flyBody_heap_self]
    simp only [appliedForces, hm, hg, hc, hj, afterClick50_heap_zero]
    norm_num [Particle.addForces, Particle.addForce, Particle.update, Vec3.zero_def]
    refine ⟨?_, ?_⟩ <;> ext <;> norm_num
  refine ⟨hg, hc, hm, hj _, ?_, e⟩
  rw [e, afterClick50_heap_zero]
  rfl

theorem update_jitter_zero_iff_witness :
    afterClick50.isGravityOn = false ∧ afterClick50.isCenterPointAttractive = false ∧
    afterClick50.magnets = [] ∧ (processed afterClick50.fireflies).count 0 = 1 ∧
    ((update qsqrt (fun _ => 50) mainDtime afterClick50).heap 0).forces
      = jitterForce (fun _ => 50)
          (afterClick50.randCalls + 3 * (processed afterClick50.fireflies).indexOf 0) := by
  obtain ⟨hm, hg, hc⟩ := afterClick50_frame
  have honce : (processed afterClick50.fireflies).count 0 = 1 := by
    rw [afterClick50_processed]
    decide
  exact ⟨hg, hc, hm, honce,
    (update_jitter_zero_iff qsqrt (fun _ => 50) mainDtime afterClick50 0 hg hc hm honce).1⟩

/-! ## A call of `update` on 500 fireflies -/

theorem spawnLoop_windowShouldClose (rng : Nat → Nat) (wx wy : ℚ) (k : Nat) (s : Application) :
    (spawnLoop rng wx wy k s).windowShouldClose = s.windowShouldClose := by
  induction k generalizing s with
  | zero => rfl
  | succ k ih =>
    rw [spawnLoop, ih]
    rfl

theorem clicks_succ (n : Nat) (hoff : (clicks n).isMagnetModeOn = false) :
    clicks (n + 1) = spawnLoop (fun _ => 0) 0 0 10 (clicks n) := by
  rw [clicks]
  norm_num [mouseCallback, hoff, FIREFLIES_PER_CLICK, GLFW_PRESS]

theorem clicks_spec (n : Nat) :
    (clicks n).fireflies = List.range (10 * n) ∧ (clicks n).next = 10 * n ∧
    (clicks n).magnets = [] ∧ (clicks n).isGravityOn = false ∧
    (clicks n).isMagnetModeOn = false ∧ (clicks n).isCenterPointAttractive = false ∧
    (clicks n).windowShouldClose = false ∧
    ∀ q, q < 10 * n →
      (clicks n).heap q = ⟨7 / 10, ⟨0, 0, -2⟩, ⟨-(3 / 20), -(3 / 20), -(3 / 20)⟩, ⟨0, 0, 0⟩⟩ := by
  induction n with
  | zero =>
    refine ⟨rfl, rfl, rfl, rfl, rfl, rfl, rfl, fun q hq => ?_⟩
    omega
  | succ n ih =>
    obtain ⟨h1, h2, h3, h4, h5, h6, h7, h8⟩ := ih
    obtain ⟨f1, f2, f3, f4, f5⟩ := spawnLoop_frame (fun _ => 0) 0 0 10 (clicks n)
    rw [clicks_succ n h5]
    refine ⟨?_, ?_, f1.trans h3, f2.trans h4, f3.trans h5, f4.trans h6,
      (spawnLoop_windowShouldClose _ _ _ _ _).trans h7, fun q hq => ?_⟩
    · rw [spawnLoop_fireflies, h1, h2, Nat.mul_succ, List.range_add]
    · rw [f5, h2, Nat.mul_succ]
    · by_cases hlt : q < 10 * n
      · rw [spawnLoop_heap_old _ _ _ _ _ q (by rw [h2]; exact hlt)]
        exact h8 q hlt
      · have hi : q - 10 * n < 10 := by omega
        have h := spawnLoop_heap_new_eq (fun _ => 0) 0 0 10 (clicks n) (q - 10 * n) hi
        have e : (clicks n).next + (q - 10 * n) = q := by rw [h2]; omega
        rw [e] at h
        rw [h]
        norm_num [Particle.new, generateRandomFloat]

theorem processed_range_500 :
    processed (List.range 500)
      = (List.range 10).map (fun i => 2 * i) ++ List.range' 20 479 ++ List.replicate 11 499 := by
  set_option maxRecDepth 100000 in decide

theorem flyBody_heap_self_jitter_only (sqrtf : ℚ → ℚ) (rng : Nat → Nat) (dtime : ℚ)
    (s : Application) (fly : Nat) (hg : s.isGravityOn = false)
    (hc : s.isCenterPointAttractive = false) (hm : s.magnets = []) :
    (flyBody sqrtf rng dtime s fly).heap fly
      = ((s.heap fly).update dtime).addForce (jitterForce rng s.randCalls) := by
  rw [flyBody_heap_self]
  simp only [appliedForces, hg, hc, hm, Bool.false_eq_true, if_false, List.map_nil,
    List.nil_append, Particle.addForces, List.foldl_cons, List.foldl_nil, addForce_zero,
    Nat.add_zero]

theorem flyBody_repeat (sqrtf : ℚ → ℚ) (dtime : ℚ) (fly k : Nat) (t : Application)
    (hg : t.isGravityOn = false) (hc : t.isCenterPointAttractive = false)
    (hm : t.magnets = []) :
    ((List.replicate k fly).foldl (flyBody sqrtf (fun _ => 0) dtime) t).heap fly
      = (fun P : Particle => (P.update dtime).addForce (jitterForce (fun _ => 0) 0))^[k]
          (t.heap fly) := by
  induction k generalizing t with
  | zero => rfl
  | succ k ih =>
    obtain ⟨g1, g2, _⟩ := flyBody_toggles sqrtf (fun _ => 0) dtime t fly
    rw [List.replicate_succ, List.foldl_cons, Function.iterate_succ_apply,
      ih _ (g1.trans hg) (g2.trans hc) ((flyBody_magnets _ _ _ _ _).trans hm),
      flyBody_heap_self_jitter_only _ _ _ _ _ hg hc hm]
    rfl

theorem clicks_50_pre :
    (((List.range 10).map (fun i => 2 * i) ++ List.range' 20 479).foldl
        (flyBody qsqrt (fun _ => 0) mainDtime) (clicks 50)).isGravityOn = false ∧
    (((List.range 10).map (fun i => 2 * i) ++ List.range' 20 479).foldl
        (flyBody qsqrt (fun _ => 0) mainDtime) (clicks 50)).isCenterPointAttractive = false ∧
    (((List.range 10).map (fun i => 2 * i) ++ List.range' 20 479).foldl
        (flyBody qsqrt (fun _ => 0) mainDtime) (clicks 50)).magnets = [] ∧
    (((List.range 10).map (fun i => 2 * i) ++ List.range' 20 479).foldl
        (flyBody qsqrt (fun _ => 0) mainDtime) (clicks 50)).heap 499
      = ⟨7 / 10, ⟨0, 0, -2⟩, ⟨-(3 / 20), -(3 / 20), -(3 / 20)⟩, ⟨0, 0, 0⟩⟩ := by
  obtain ⟨_, _, h3, h4, _, h6, _, h8⟩ := clicks_spec 50
  obtain ⟨t1, t2, _⟩ := flyBody_fold_toggles qsqrt (fun _ => 0) mainDtime
    ((List.range 10).map (fun i => 2 * i) ++ List.range' 20 479) (clicks 50) h6
  refine ⟨t1.trans h4, t2, (flyBody_fold_magnets _ _ _ _ _).trans h3, ?_⟩
  rw [flyBody_fold_heap_other _ _ _ _ _ 499 (by set_option maxRecDepth 100000 in decide)]
  exact h8 499 (by norm_num)

/-- C13 at the failing input: in the state after 50 mouse presses (500
fireflies, at the addresses 0 to 499), one call `update(0.1)` with `rand()`
returning 0 never reads the address 11, although that firefly stays in the
collection, and leaves its particle untouched; and it reads the address 499
eleven times, so that the last firefly, whose accumulator was empty, ends with
the velocity `-51/140` per component where one integration leaves `-3/20`. -/
theorem update_at_cap_skips_and_repeats :
    (clicks 50).fireflies = List.range 500 ∧
    (processed (clicks 50).fireflies).count 11 = 0 ∧
    11 ∈ (update qsqrt (fun _ => 0) mainDtime (clicks 50)).fireflies ∧
    (update qsqrt (fun _ => 0) mainDtime (clicks 50)).heap 11 = (clicks 50).heap 11 ∧
    (processed (clicks 50).fireflies).count 499 = 11 ∧
    (((clicks 50).heap 499).update mainDtime).velocity = ⟨-(3 / 20), -(3 / 20), -(3 / 20)⟩ ∧
    ((update qsqrt (fun _ => 0) mainDtime (clicks 50)).heap 499).velocity
      = ⟨-(51 / 140), -(51 / 140), -(51 / 140)⟩ := by
  obtain ⟨h1, _, _, _, _, _, _, h8⟩ := clicks_spec 50
  have hf : (clicks 50).fireflies = List.range 500 := h1
  have hnot : 11 ∉ processed (List.range 500) := by
    rw [processed_range_500]
    set_option maxRecDepth 100000 in decide
  obtain ⟨p1, p2, p3, p4⟩ := clicks_50_pre
  refine ⟨hf, ?_, ?_, ?_, ?_, ?_, ?_⟩
  · rw [hf]
    exact List.count_eq_zero.mpr hnot
  · rw [update_fireflies, hf]
    set_option maxRecDepth 100000 in decide
  · rw [update_eq, withFireflies_heap, hf]
    exact flyBody_fold_heap_other _ _ _ _ _ 11 hnot
  · rw [hf, processed_range_500]
    set_option maxRecDepth 100000 in decide
  · rw [h8 499 (by norm_num)]
    norm_num [Particle.update, mainDtime]
    ext <;> norm_num
  · rw [update_eq, withFireflies_heap, hf, processed_range_500, List.foldl_append,
      flyBody_repeat _ _ _ _ _ p1 p2 p3, p4]
    norm_num [Function.iterate_succ_apply, Particle.update, Particle.addForce, jitterForce,
      generateRandomFloat, mainDtime, Vec3.zero_def]
    ext <;> norm_num

/-! ## The frame loop -/

theorem update_init (sqrtf : ℚ → ℚ) (rng : Nat → Nat) (dtime : ℚ) :
    update sqrtf rng dtime init = init := rfl

theorem run_replicate_pressMiddle (n : Nat) :
    run qsqrt (fun _ => 0) (List.replicate n pressMiddle) init = clicks n := by
  induction n with
  | zero => rfl
  | succ n ih =>
    rw [List.replicate_succ', run_append, ih]
    rfl

/-- C14 at the failing input: when the first call of `glfwPollEvents()`
delivers 51 mouse presses, the loop of `main` renders the initial state and
then a state of 510 fireflies, on which `drawObjects` writes `lightsArray[f]`
for `f = 500`, past the end of the array of `NUMBER_OF_FIREFLIES = 500`
elements. -/
theorem render_writes_past_lightsArray :
    (renderStates qsqrt (fun _ => 0) [List.replicate 51 pressMiddle] init).map
        (fun t => t.fireflies.length) = [0, 510] ∧
    frame qsqrt (fun _ => 0) init (List.replicate 51 pressMiddle) = clicks 51 ∧
    (clicks 51).fireflies.length = 510 ∧
    500 ∈ lightsArrayWrites (clicks 51) ∧
    ¬ 500 < NUMBER_OF_FIREFLIES := by
  obtain ⟨h1, _, _, _, _, _, h7, _⟩ := clicks_spec 51
  have hframe : frame qsqrt (fun _ => 0) init (List.replicate 51 pressMiddle) = clicks 51 := by
    rw [frame, update_init, run_replicate_pressMiddle]
  have hlen : (clicks 51).fireflies.length = 510 := by
    rw [h1, List.length_range]
  have hinit : init.windowShouldClose = false := rfl
  refine ⟨?_, hframe, hlen, ?_, by decide⟩
  · rw [renderStates, renderStates, hframe]
    simp only [hinit, h7, Bool.false_eq_true, if_false, List.map_cons, List.map_nil, hlen]
    rfl
  · rw [lightsArrayWrites, hlen, List.mem_range]
    norm_num

theorem step_length_le (sqrtf : ℚ → ℚ) (rng : Nat → Nat) (s : Application) (ev : Event) :
    (step sqrtf rng s ev).fireflies.length
      ≤ s.fireflies.length + (if ev.isMouse then 10 else 0) := by
  cases ev with
  | key key action =>
    simp only [step, Event.isMouse, Bool.false_eq_true, if_false, Nat.add_zero]
    unfold keyCallback
    split_ifs <;> simp
  | mouse action posX posY width height =>
    simp only [step, Event.isMouse, if_true]
    unfold mouseCallback
    by_cases ha : action = GLFW_PRESS
    · rw [if_pos ha]
      dsimp only
      by_cases hm : s.isMagnetModeOn = true
      · simp only [hm, Bool.not_true, Bool.false_eq_true, if_false]
        show s.fireflies.length ≤ s.fireflies.length + 10
        omega
      · have hoff : s.isMagnetModeOn = false := by simpa using hm
        simp only [hoff, Bool.not_false, if_true]
        rw [spawnLoop_fireflies, List.length_append, List.length_map, List.length_range]
        exact Nat.le_refl _
    · rw [if_neg ha]
      omega
  | tick dtime =>
    simp only [step, Event.isMouse, Bool.false_eq_true, if_false, Nat.add_zero]
    rw [update_fireflies, List.length_drop]
    omega

theorem run_length_le (sqrtf : ℚ → ℚ) (rng : Nat → Nat) (evs : List Event) (s : Application) :
    (run sqrtf rng evs s).fireflies.length
      ≤ s.fireflies.length + 10 * evs.countP Event.isMouse := by
  induction evs generalizing s with
  | nil => simp [run]
  | cons ev evs ih =>
    have h1 := ih (step sqrtf rng s ev)
    have h2 := step_length_le sqrtf rng s ev
    have e : run sqrtf rng (ev :: evs) s = run sqrtf rng evs (step sqrtf rng s ev) := rfl
    rw [e, List.countP_cons]
    by_cases hm : ev.isMouse = true
    · simp only [hm, if_true] at h2 ⊢
      omega
    · simp only [hm, Bool.false_eq_true, if_false] at h2 ⊢
      omega

/-- When every call of `glfwPollEvents()` delivers at most one mouse button
event, every state the loop of `main` renders holds at most
`NUMBER_OF_FIREFLIES` fireflies. -/
theorem renderStates_le_cap (sqrtf : ℚ → ℚ) (rng : Nat → Nat) (polls : List (List Event))
    (s : Application) (hpolls : ∀ polled ∈ polls, polled.countP Event.isMouse ≤ 1)
    (hs : s.fireflies.length ≤ 500) :
    ∀ t ∈ renderStates sqrtf rng polls s, t.fireflies.length ≤ 500 := by
  induction polls generalizing s with
  | nil =>
    intro t ht
    rw [renderStates] at ht
    split_ifs at ht
    · simp at ht
    · rw [List.mem_singleton] at ht
      rw [ht]
      exact hs
  | cons polled rest ih =>
    intro t ht
    rw [renderStates] at ht
    split_ifs at ht
    · simp at ht
    · rcases List.mem_cons.mp ht with h | h
      · rw [h]
        exact hs
      · have hle := run_length_le sqrtf rng polled (update sqrtf rng mainDtime s)
        have hup : (update sqrtf rng mainDtime s).fireflies.length ≤ 490 := by
          rw [update_fireflies, List.length_drop]
          omega
        have hone := hpolls polled (List.mem_cons_self _ _)
        refine ih (frame sqrtf rng s polled)
          (fun p hp => hpolls p (List.mem_cons_of_mem _ hp)) ?_ t h
        rw [frame]
        omega

theorem flyBody_fold_isMagnetModeOn (sqrtf : ℚ → ℚ) (rng : Nat → Nat) (dtime : ℚ)
    (tr : List Nat) (s : Application) :
    (tr.foldl (flyBody sqrtf rng dtime) s).isMagnetModeOn = s.isMagnetModeOn := by
  induction tr generalizing s with
  | nil => rfl
  | cons a tr ih =>
    rw [List.foldl_cons, ih, flyBody_eq]
    rfl

theorem withFireflies_isMagnetModeOn (s : Application) (L : List Nat) :
    (s.withFireflies L).isMagnetModeOn = s.isMagnetModeOn := rfl

theorem update_isMagnetModeOn (sqrtf : ℚ → ℚ) (rng : Nat → Nat) (dtime : ℚ) (s : Application) :
    (update sqrtf rng dtime s).isMagnetModeOn = s.isMagnetModeOn := by
  rw [update_eq, withFireflies_isMagnetModeOn]
  exact flyBody_fold_isMagnetModeOn _ _ _ _ _

theorem run_two_presses (sqrtf : ℚ → ℚ) (rng : Nat → Nat) (t : Application) :
    run sqrtf rng [pressMiddle, pressMiddle] t
      = mouseCallback rng GLFW_PRESS 400 300 800 600
          (mouseCallback rng GLFW_PRESS 400 300 800 600 t) := rfl

theorem press_length (rng : Nat → Nat) (posX posY : ℚ) (width height : Int) (s : Application)
    (hoff : s.isMagnetModeOn = false) :
    (mouseCallback rng GLFW_PRESS posX posY width height s).fireflies.length
        = s.fireflies.length + 10 ∧
    (mouseCallback rng GLFW_PRESS posX posY width height s).isMagnetModeOn = false := by
  have e : mouseCallback rng GLFW_PRESS posX posY width height s
      = spawnLoop rng (4 * posX / width - 2) (-2 * posY / height + 1) 10 s := by
    simp [mouseCallback, hoff, FIREFLIES_PER_CLICK]
  obtain ⟨_, _, h3, _, _⟩ :=
    spawnLoop_frame rng (4 * posX / width - 2) (-2 * posY / height + 1) 10 s
  rw [e, spawnLoop_fireflies, List.length_append, List.length_map, List.length_range]
  exact ⟨rfl, h3.trans hoff⟩

/-- With 490 fireflies held, two mouse presses delivered by one call of
`glfwPollEvents()` are enough: the next state rendered holds 510 fireflies. -/
theorem frame_two_presses_at_cap :
    (clicks 49).fireflies.length = 490 ∧
    (frame qsqrt (fun _ => 0) (clicks 49) [pressMiddle, pressMiddle]).fireflies.length = 510 := by
  obtain ⟨h1, _, _, _, h5, _, _, _⟩ := clicks_spec 49
  have hlen : (clicks 49).fireflies.length = 490 := by
    rw [h1, List.length_range]
  have hup : (update qsqrt (fun _ => 0) mainDtime (clicks 49)).fireflies.length = 490 := by
    rw [update_fireflies, List.length_drop, hlen]
  have hoff : (update qsqrt (fun _ => 0) mainDtime (clicks 49)).isMagnetModeOn = false :=
    (update_isMagnetModeOn _ _ _ _).trans h5
  obtain ⟨a1, a2⟩ := press_length (fun _ => 0) 400 300 800 600 _ hoff
  obtain ⟨b1, _⟩ := press_length (fun _ => 0) 400 300 800 600 _ a2
  refine ⟨hlen, ?_⟩
  rw [frame, run_two_presses, b1, a1, hup]

end Application

end Particles
